import Mathlib

/-
  Verification of the coach-database repository core algorithms.

  Strings are modelled as lists of character codes (`List Nat`), the ASCII
  fragment of Python `str` semantics.  Every definition below is a direct
  translation of a function in the repository sources; the file name of the
  original is given in each doc comment.
-/

set_option maxRecDepth 8000

namespace CoachDB

/-- Character codes of a string: the carrier for all modelled Python string
operations. -/
def enc (s : String) : List Nat := s.data.map Char.toNat

/-- Python str.lower on an ASCII code. -/
def lowerCode (n : Nat) : Nat := if 65 ≤ n ∧ n ≤ 90 then n + 32 else n

/-- Python whitespace (the ASCII part of regex \s and of str.split()). -/
def isWsCode (n : Nat) : Bool :=
  n = 32 || n = 9 || n = 10 || n = 13 || n = 11 || n = 12

/-- ASCII letter: the regex class a-zA-Z. -/
def isAlphaCode (n : Nat) : Bool := (65 ≤ n && n ≤ 90) || (97 ≤ n && n ≤ 122)

/-- Helper for Python str.split(): walks the codes keeping the current
token reversed in the accumulator. -/
def splitWsAux : List Nat → List Nat → List (List Nat)
  | [], acc => if acc = [] then [] else [acc.reverse]
  | c :: rest, acc =>
    if isWsCode c then
      if acc = [] then splitWsAux rest [] else acc.reverse :: splitWsAux rest []
    else
      splitWsAux rest (c :: acc)

/-- Python str.split() with no arguments: split on whitespace runs and drop
empty pieces. -/
def splitWs (cs : List Nat) : List (List Nat) := splitWsAux cs []

/-- Python sep.join for a single-space separator. -/
def joinSpace : List (List Nat) → List Nat
  | [] => []
  | [t] => t
  | t :: ts => t ++ 32 :: joinSpace ts

/-- The honorific suffixes dropped by normalize_name. -/
def honorifics : List (List Nat) := [enc "jr", enc "sr", enc "ii", enc "iii", enc "iv"]

/-- The token list of normalize_name: clean the disallowed characters to
spaces, lower-case, split on whitespace, drop honorific tokens.  The keep
predicate is the (negated) character class of the re.sub call. -/
def normTokens (keep : Nat → Bool) (cs : List Nat) : List (List Nat) :=
  (splitWs ((cs.map (fun c => if keep c then c else 32)).map lowerCode)).filter
    (fun t => decide (t ∉ honorifics))

/-- normalize_name, parameterized by the character class kept by its re.sub. -/
def normalizeWith (keep : Nat → Bool) (cs : List Nat) : List Nat :=
  joinSpace (normTokens keep cs)

namespace ScrapeSalaries

/-- Character class kept by re.sub(r"[^a-zA-Z\\s]", " ", name) in
scripts/scrape_salaries.py.  The raw string escapes the backslash, so the
class is: ASCII letters, the backslash (92) and the letter s (115). -/
def keepChar (n : Nat) : Bool := isAlphaCode n || n = 92 || n = 115

/-- normalize_name from scripts/scrape_salaries.py. -/
def normalize_name (cs : List Nat) : List Nat := normalizeWith keepChar cs

end ScrapeSalaries

namespace StateSalary

/-- Character class kept by re.sub(r"[^a-zA-Z\s]", " ", name) in
scripts/state_salary.py: ASCII letters and whitespace. -/
def keepChar (n : Nat) : Bool := isAlphaCode n || isWsCode n

/-- normalize_name from scripts/state_salary.py. -/
def normalize_name (cs : List Nat) : List Nat := normalizeWith keepChar cs

end StateSalary

/-! Facts about split/join used for the idempotence of normalize_name. -/

theorem lowerCode_idem (n : Nat) : lowerCode (lowerCode n) = lowerCode n := by
  unfold lowerCode
  split_ifs <;> omega

theorem splitWsAux_nil (acc : List Nat) :
    splitWsAux [] acc = if acc = [] then [] else [acc.reverse] := rfl

theorem splitWsAux_cons (c : Nat) (rest acc : List Nat) :
    splitWsAux (c :: rest) acc =
      if isWsCode c then
        if acc = [] then splitWsAux rest [] else acc.reverse :: splitWsAux rest []
      else splitWsAux rest (c :: acc) := rfl

theorem map_eq_self_of {α : Type} (l : List α) (f : α → α) (h : ∀ a ∈ l, f a = a) :
    l.map f = l := by
  induction l with
  | nil => rfl
  | cons a l ih =>
    simp only [List.map_cons]
    rw [h a (List.mem_cons_self _ _), ih (fun x hx => h x (List.mem_cons_of_mem _ hx))]

theorem splitWsAux_mem (cs : List Nat) :
    ∀ (acc : List Nat), (∀ c ∈ acc, isWsCode c = false) →
      ∀ t ∈ splitWsAux cs acc,
        t ≠ [] ∧ ∀ c ∈ t, isWsCode c = false ∧ (c ∈ cs ∨ c ∈ acc) := by
  induction cs with
  | nil =>
    intro acc hacc t ht
    rw [splitWsAux_nil] at ht
    by_cases hae : acc = []
    · simp [hae] at ht
    · rw [if_neg hae] at ht
      simp only [List.mem_singleton] at ht
      subst ht
      constructor
      · simpa using hae
      · intro c hc
        rw [List.mem_reverse] at hc
        exact ⟨hacc c hc, Or.inr hc⟩
  | cons c0 rest ih =>
    intro acc hacc t ht
    rw [splitWsAux_cons] at ht
    by_cases hws : isWsCode c0 = true
    · rw [if_pos hws] at ht
      by_cases hae : acc = []
      · rw [if_pos hae] at ht
        obtain ⟨h1, h2⟩ := ih [] (by simp) t ht
        refine ⟨h1, fun c hc => ⟨(h2 c hc).1, ?_⟩⟩
        rcases (h2 c hc).2 with h | h
        · exact Or.inl (List.mem_cons_of_mem _ h)
        · simp at h
      · rw [if_neg hae] at ht
        rcases List.mem_cons.mp ht with rfl | ht
        · constructor
          · simpa using hae
          · intro c hc
            rw [List.mem_reverse] at hc
            exact ⟨hacc c hc, Or.inr hc⟩
        · obtain ⟨h1, h2⟩ := ih [] (by simp) t ht
          refine ⟨h1, fun c hc => ⟨(h2 c hc).1, ?_⟩⟩
          rcases (h2 c hc).2 with h | h
          · exact Or.inl (List.mem_cons_of_mem _ h)
          · simp at h
    · rw [if_neg hws] at ht
      have hacc' : ∀ c ∈ c0 :: acc, isWsCode c = false := by
        intro c hc
        rcases List.mem_cons.mp hc with rfl | hc
        · simpa using hws
        · exact hacc c hc
      obtain ⟨h1, h2⟩ := ih (c0 :: acc) hacc' t ht
      refine ⟨h1, fun c hc => ⟨(h2 c hc).1, ?_⟩⟩
      rcases (h2 c hc).2 with h | h
      · exact Or.inl (List.mem_cons_of_mem _ h)
      · rcases List.mem_cons.mp h with rfl | h
        · exact Or.inl (List.mem_cons_self _ _)
        · exact Or.inr h

theorem splitWsAux_append_nows (t : List Nat) (hnw : ∀ c ∈ t, isWsCode c = false) :
    ∀ (rest acc : List Nat),
      splitWsAux (t ++ rest) acc = splitWsAux rest (t.reverse ++ acc) := by
  induction t with
  | nil => intro rest acc; simp
  | cons c t' ih =>
    intro rest acc
    have hc : isWsCode c = false := hnw c (List.mem_cons_self _ _)
    have ht' : ∀ x ∈ t', isWsCode x = false := fun x hx => hnw x (List.mem_cons_of_mem _ hx)
    rw [List.cons_append, splitWsAux_cons, hc]
    simp only [Bool.false_eq_true, if_false]
    rw [ih ht' rest (c :: acc)]
    simp

theorem splitWs_joinSpace (ts : List (List Nat))
    (h1 : ∀ t ∈ ts, t ≠ [])
    (h2 : ∀ t ∈ ts, ∀ c ∈ t, isWsCode c = false) :
    splitWs (joinSpace ts) = ts := by
  induction ts with
  | nil => simp [splitWs, joinSpace, splitWsAux]
  | cons t ts' ih =>
    cases ts' with
    | nil =>
      have hne := h1 t (List.mem_cons_self _ _)
      have hnw := h2 t (List.mem_cons_self _ _)
      show splitWsAux (joinSpace [t]) [] = [t]
      have hj : joinSpace [t] = t ++ [] := by simp [joinSpace]
      rw [hj, splitWsAux_append_nows t hnw [] [], splitWsAux_nil]
      rw [if_neg (by simpa using hne)]
      simp
    | cons t2 ts'' =>
      have hne := h1 t (List.mem_cons_self _ _)
      have hnw := h2 t (List.mem_cons_self _ _)
      show splitWsAux (joinSpace (t :: t2 :: ts'')) [] = t :: t2 :: ts''
      have hj : joinSpace (t :: t2 :: ts'') = t ++ 32 :: joinSpace (t2 :: ts'') := rfl
      rw [hj, splitWsAux_append_nows t hnw _ [], splitWsAux_cons]
      rw [if_pos (by decide)]
      rw [if_neg (by simpa using hne)]
      have hrec := ih (fun x hx => h1 x (List.mem_cons_of_mem _ hx))
        (fun x hx => h2 x (List.mem_cons_of_mem _ hx))
      unfold splitWs at hrec
      rw [hrec]
      simp

theorem mem_joinSpace (c : Nat) (ts : List (List Nat)) (hc : c ∈ joinSpace ts) :
    (∃ t ∈ ts, c ∈ t) ∨ c = 32 := by
  induction ts with
  | nil => simp [joinSpace] at hc
  | cons t ts' ih =>
    cases ts' with
    | nil =>
      simp only [joinSpace] at hc
      exact Or.inl ⟨t, List.mem_cons_self _ _, hc⟩
    | cons t2 ts'' =>
      have hj : joinSpace (t :: t2 :: ts'') = t ++ 32 :: joinSpace (t2 :: ts'') := rfl
      rw [hj] at hc
      rcases List.mem_append.mp hc with h | h
      · exact Or.inl ⟨t, List.mem_cons_self _ _, h⟩
      · rcases List.mem_cons.mp h with rfl | h
        · exact Or.inr rfl
        · rcases ih h with ⟨u, hu, hcu⟩ | h
          · exact Or.inl ⟨u, List.mem_cons_of_mem _ hu, hcu⟩
          · exact Or.inr h

theorem normalizeWith_idem (keep : Nat → Bool)
    (Hk : ∀ c, keep c = true → isWsCode (lowerCode c) = false → keep (lowerCode c) = true)
    (cs : List Nat) :
    normalizeWith keep (normalizeWith keep cs) = normalizeWith keep cs := by
  set xs := (cs.map (fun c => if keep c then c else 32)).map lowerCode with hxs
  set toks := normTokens keep cs with htoks
  have hxchar : ∀ c ∈ xs, isWsCode c = false → keep c = true ∧ lowerCode c = c := by
    intro c hc hnw
    rw [hxs] at hc
    simp only [List.mem_map] at hc
    obtain ⟨c1, hc1, hc1e⟩ := hc
    obtain ⟨c0, _, hc0e⟩ := hc1
    by_cases hk : keep c0 = true
    · rw [if_pos hk] at hc0e
      subst hc0e
      subst hc1e
      exact ⟨Hk c0 hk hnw, lowerCode_idem c0⟩
    · exfalso
      rw [if_neg hk] at hc0e
      subst hc0e
      subst hc1e
      have h32 : lowerCode 32 = 32 := by norm_num [lowerCode]
      rw [h32] at hnw
      simp [isWsCode] at hnw
  have htokfacts : ∀ t ∈ toks, t ≠ [] ∧
      ∀ c ∈ t, isWsCode c = false ∧ keep c = true ∧ lowerCode c = c := by
    intro t ht
    rw [htoks] at ht
    unfold normTokens at ht
    have hmem := List.mem_of_mem_filter ht
    have hsp := splitWsAux_mem xs [] (by simp) t hmem
    refine ⟨hsp.1, fun c hc => ?_⟩
    have hmw := (hsp.2 c hc).1
    have hcm : c ∈ xs := by
      rcases (hsp.2 c hc).2 with h | h
      · exact h
      · simp at h
    exact ⟨hmw, (hxchar c hcm hmw).1, (hxchar c hcm hmw).2⟩
  set r := joinSpace toks with hr
  have hclean : r.map (fun c => if keep c then c else 32) = r := by
    apply map_eq_self_of
    intro c hc
    rw [hr] at hc
    rcases mem_joinSpace c toks hc with ⟨t, ht, hct⟩ | rfl
    · rw [if_pos (((htokfacts t ht).2 c hct).2.1)]
    · by_cases h : keep 32 = true
      · rw [if_pos h]
      · rw [if_neg h]
  have hlower : r.map lowerCode = r := by
    apply map_eq_self_of
    intro c hc
    rw [hr] at hc
    rcases mem_joinSpace c toks hc with ⟨t, ht, hct⟩ | rfl
    · exact ((htokfacts t ht).2 c hct).2.2
    · norm_num [lowerCode]
  have hsplit : splitWs r = toks := by
    rw [hr]
    exact splitWs_joinSpace toks (fun t ht => (htokfacts t ht).1)
      (fun t ht c hc => ((htokfacts t ht).2 c hc).1)
  have hfilter : toks.filter (fun t => decide (t ∉ honorifics)) = toks := by
    apply List.filter_eq_self.mpr
    intro t ht
    rw [htoks] at ht
    unfold normTokens at ht
    exact (List.mem_filter.mp ht).2
  show normalizeWith keep r = r
  unfold normalizeWith normTokens
  rw [hclean, hlower, hsplit, hfilter]

/-- Claim C9: person-name normalization is idempotent.  This holds for both
copies of normalize_name in the repository (scripts/scrape_salaries.py and
scripts/state_salary.py). -/
theorem c9_normalize_name_idempotent (n : List Nat) :
    ScrapeSalaries.normalize_name (ScrapeSalaries.normalize_name n) = ScrapeSalaries.normalize_name n ∧
    StateSalary.normalize_name (StateSalary.normalize_name n) = StateSalary.normalize_name n := by
  constructor
  · apply normalizeWith_idem
    intro c hk _
    unfold ScrapeSalaries.keepChar isAlphaCode at hk ⊢
    unfold lowerCode
    simp only [Bool.or_eq_true, Bool.and_eq_true, decide_eq_true_eq] at hk ⊢
    split_ifs with h <;> omega
  · apply normalizeWith_idem
    intro c hk hnw
    unfold StateSalary.keepChar isAlphaCode isWsCode at hk ⊢
    unfold lowerCode at hnw ⊢
    unfold isWsCode at hnw
    simp only [Bool.or_eq_true, Bool.and_eq_true, decide_eq_true_eq] at hk ⊢
    simp only [Bool.or_eq_false_iff, decide_eq_false_iff_not] at hnw
    split_ifs at hnw ⊢ with h <;> omega

/-- Sanity check of the normalizer on a concrete name. -/
theorem normalize_name_example :
    StateSalary.normalize_name (enc "John Smith Jr.") = enc "john smith" := by decide

/-!  difflib.SequenceMatcher, as used by name_score in
scripts/scrape_salaries.py and scripts/state_salary.py.  The sequences
involved are short, so the junk/autojunk machinery of difflib never fires
and find_longest_match returns the longest matching block, earliest in the
first sequence and then earliest in the second. -/

/-- Length of the common run at the heads of two code lists. -/
def commonRun : List Nat → List Nat → Nat
  | a :: as, b :: bs => if a = b then commonRun as bs + 1 else 0
  | _, _ => 0

/-- find_longest_match over the whole of both sequences: the triple
(i, j, k) of the longest matching block, smallest i then smallest j among
the maxima. -/
def bestBlock (a b : List Nat) : Nat × Nat × Nat :=
  (List.range a.length).foldl (fun best i =>
    (List.range b.length).foldl (fun best j =>
      let k := commonRun (a.drop i) (b.drop j)
      if best.2.2 < k then (i, j, k) else best) best) (0, 0, 0)

/-- Total size of the matching blocks (the recursion of get_matching_blocks).
The fuel argument only forces termination; a.length + 1 is always enough
because each recursive call strictly shortens the first sequence. -/
def matchedTotal : Nat → List Nat → List Nat → Nat
  | 0, _, _ => 0
  | fuel + 1, a, b =>
    let t := bestBlock a b
    if t.2.2 = 0 then 0
    else matchedTotal fuel (a.take t.1) (b.take t.2.1) + t.2.2 +
         matchedTotal fuel (a.drop (t.1 + t.2.2)) (b.drop (t.2.1 + t.2.2))

/-- SequenceMatcher.ratio = 2*M/T, and 1.0 when both sequences are empty.
Modelled in exact rational arithmetic; for the short names compared here the
rational comparisons agree with the float comparisons of the source. -/
def name_score (a b : List Nat) : ℚ :=
  if a.length + b.length = 0 then 1
  else 2 * (matchedTotal (a.length + 1) a b : ℚ) / (a.length + b.length)

/-- A row of the coaches table, with the columns read by the matcher. -/
structure CoachRow where
  id : Nat
  school_id : Nat
  name : List Nat
  position : Option (List Nat)
  is_head_coach : Nat
  year : Int
deriving DecidableEq

namespace ScrapeSalaries

/-- Python string comparison (code-point lexicographic), used by the sort
key of the exact branch of best_coach_match. -/
def lexLtCodes : List Nat → List Nat → Bool
  | [], [] => false
  | [], _ :: _ => true
  | _ :: _, [] => false
  | a :: as, b :: bs => a < b || (a = b && lexLtCodes as bs)

/-- Strictly greater in the sort key (is_head_coach, name) of the exact
branch of best_coach_match. -/
def exKeyGt (c b : CoachRow) : Bool :=
  b.is_head_coach < c.is_head_coach ||
  (b.is_head_coach = c.is_head_coach && lexLtCodes b.name c.name)

/-- One step of keeping the best element so far; a stable sort in reverse
followed by taking element 0 returns the leftmost maximum, which is what
this fold computes. -/
def pickStep {α : Type} (gt : α → α → Bool) (acc : Option α) (c : α) : Option α :=
  match acc with
  | none => some c
  | some b => if gt c b then some c else some b

/-- Leftmost maximum of a list under a strict comparison. -/
def pickFirstMax {α : Type} (gt : α → α → Bool) (l : List α) : Option α :=
  l.foldl (pickStep gt) none

/-- The candidate pool of best_coach_match: coaches rows for the school and
roster year. -/
def candidatesOf (table : List CoachRow) (sid : Nat) (y : Int) : List CoachRow :=
  table.filter (fun c => decide (c.school_id = sid ∧ c.year = y))

/-- The exact-normalized-name candidates. -/
def exactMatchesOf (target : List Nat) (cands : List CoachRow) : List CoachRow :=
  cands.filter (fun c => decide (normalize_name c.name = target))

/-- The fuzzy score of a candidate against the normalized query. -/
def scoreOf (target : List Nat) (c : CoachRow) : ℚ :=
  name_score target (normalize_name c.name)

/-- One step of the fuzzy loop of best_coach_match: keep the best
(score, candidate) pair, replacing only on a strictly greater score. -/
def fuzzyStep (target : List Nat) (best : Option (ℚ × CoachRow)) (cand : CoachRow) :
    Option (ℚ × CoachRow) :=
  match best with
  | none => some (scoreOf target cand, cand)
  | some (s, b) => if s < scoreOf target cand then some (scoreOf target cand, cand) else some (s, b)

/-- The fuzzy loop of best_coach_match. -/
def fuzzyBest (target : List Nat) (cands : List CoachRow) : Option (ℚ × CoachRow) :=
  cands.foldl (fuzzyStep target) none

/-- best_coach_match from scripts/scrape_salaries.py, over the coaches
table. -/
def best_coach_match (table : List CoachRow) (school_id : Nat) (person_name : List Nat)
    (roster_year : Int) (min_score : ℚ) : Option CoachRow :=
  if normalize_name person_name = [] then none
  else if candidatesOf table school_id roster_year = [] then none
  else if exactMatchesOf (normalize_name person_name) (candidatesOf table school_id roster_year) ≠ [] then
    pickFirstMax exKeyGt (exactMatchesOf (normalize_name person_name) (candidatesOf table school_id roster_year))
  else
    match fuzzyBest (normalize_name person_name) (candidatesOf table school_id roster_year) with
    | some (s, b) => if min_score ≤ s then some b else none
    | none => none

/-- Running maximum of scores over a list, seeded with s. -/
def maxScoreWith (target : List Nat) (s : ℚ) (l : List CoachRow) : ℚ :=
  l.foldl (fun m c => max m (scoreOf target c)) s

/-- The maximum fuzzy score over a candidate pool (0 for an empty pool). -/
def maxScore (target : List Nat) : List CoachRow → ℚ
  | [] => 0
  | c :: rest => maxScoreWith target (scoreOf target c) rest

end ScrapeSalaries

/-- Evaluation helper for name_score on sequences that are not both empty. -/
theorem name_score_eval (a b : List Nat) (h : a.length + b.length ≠ 0) :
    name_score a b =
      2 * (matchedTotal (a.length + 1) a b : ℚ) / ((a.length : ℚ) + (b.length : ℚ)) := by
  unfold name_score
  rw [if_neg h]

/-- A quick evaluation of the similarity model: ratio of "jon smith" with
"jjon smith" is 2*9/19. -/
theorem name_score_example :
    name_score (enc "jon smith") (enc "jjon smith") = 18 / 19 := by
  rw [name_score_eval _ _ (by decide)]
  rw [show (enc "jon smith").length = 9 from by decide,
      show (enc "jjon smith").length = 10 from by decide,
      show matchedTotal 10 (enc "jon smith") (enc "jjon smith") = 9 from by decide]
  norm_num

namespace ScrapeSalaries

/-! General facts about the exact branch of best_coach_match. -/

theorem pickStep_some {α : Type} (gt : α → α → Bool) (b c : α) :
    pickStep gt (some b) c = if gt c b then some c else some b := rfl

theorem fuzzyStep_some (target : List Nat) (s : ℚ) (b : CoachRow) (c : CoachRow) :
    fuzzyStep target (some (s, b)) c =
      if s < scoreOf target c then some (scoreOf target c, c) else some (s, b) := rfl

theorem pickFold_exists {α : Type} (gt : α → α → Bool) (l : List α) :
    ∀ b : α, ∃ b', List.foldl (pickStep gt) (some b) l = some b' := by
  induction l with
  | nil => intro b; exact ⟨b, rfl⟩
  | cons c rest ih =>
    intro b
    rw [List.foldl_cons, pickStep_some]
    by_cases h : gt c b = true
    · rw [if_pos h]; exact ih c
    · rw [if_neg h]; exact ih b

theorem exKeyGt_hc {c b : CoachRow} (h : exKeyGt c b = true) :
    b.is_head_coach ≤ c.is_head_coach := by
  unfold exKeyGt at h
  simp only [Bool.or_eq_true, Bool.and_eq_true, decide_eq_true_eq] at h
  rcases h with h | ⟨h, _⟩
  · exact le_of_lt h
  · exact le_of_eq h

theorem exKeyGt_hc_not {c b : CoachRow} (h : exKeyGt c b = false) :
    c.is_head_coach ≤ b.is_head_coach := by
  unfold exKeyGt at h
  simp only [Bool.or_eq_false_iff, Bool.and_eq_false_iff] at h
  have := h.1
  simp only [decide_eq_false_iff_not, not_lt] at this
  exact this

theorem pickFold_spec (l : List CoachRow) :
    ∀ (b b' : CoachRow), List.foldl (pickStep exKeyGt) (some b) l = some b' →
      (b' = b ∨ b' ∈ l) ∧ b.is_head_coach ≤ b'.is_head_coach ∧
      ∀ x ∈ l, x.is_head_coach ≤ b'.is_head_coach := by
  induction l with
  | nil =>
    intro b b' h
    simp only [List.foldl_nil, Option.some.injEq] at h
    exact ⟨Or.inl h.symm, le_of_eq (by rw [h]), by simp⟩
  | cons c rest ih =>
    intro b b' h
    rw [List.foldl_cons, pickStep_some] at h
    by_cases hgt : exKeyGt c b = true
    · rw [if_pos hgt] at h
      obtain ⟨hmem, hle, hall⟩ := ih c b' h
      refine ⟨?_, le_trans (exKeyGt_hc hgt) hle, ?_⟩
      · rcases hmem with rfl | hm
        · exact Or.inr (List.mem_cons_self _ _)
        · exact Or.inr (List.mem_cons_of_mem _ hm)
      · intro x hx
        rcases List.mem_cons.mp hx with rfl | hx
        · exact hle
        · exact hall x hx
    · rw [if_neg hgt] at h
      obtain ⟨hmem, hle, hall⟩ := ih b b' h
      refine ⟨?_, hle, ?_⟩
      · rcases hmem with rfl | hm
        · exact Or.inl rfl
        · exact Or.inr (List.mem_cons_of_mem _ hm)
      · intro x hx
        rcases List.mem_cons.mp hx with rfl | hx
        · exact le_trans (exKeyGt_hc_not (by simpa using hgt)) hle
        · exact hall x hx

/-! General facts about the fuzzy branch of best_coach_match. -/

theorem maxScoreWith_cons (target : List Nat) (s : ℚ) (c : CoachRow) (l : List CoachRow) :
    maxScoreWith target s (c :: l) = maxScoreWith target (max s (scoreOf target c)) l := rfl

theorem maxScoreWith_ge (target : List Nat) (l : List CoachRow) :
    ∀ s : ℚ, s ≤ maxScoreWith target s l := by
  induction l with
  | nil => intro s; exact le_refl s
  | cons c rest ih =>
    intro s
    rw [maxScoreWith_cons]
    exact le_trans (le_max_left _ _) (ih _)

theorem fuzzyFold_spec (target : List Nat) (l : List CoachRow) :
    ∀ (s : ℚ) (b : CoachRow),
      ∃ b', List.foldl (fuzzyStep target) (some (s, b)) l = some (maxScoreWith target s l, b') ∧
        ((s < maxScoreWith target s l ∧
            l.find? (fun c => decide (scoreOf target c = maxScoreWith target s l)) = some b') ∨
         (b' = b ∧ maxScoreWith target s l = s)) := by
  induction l with
  | nil =>
    intro s b
    exact ⟨b, rfl, Or.inr ⟨rfl, rfl⟩⟩
  | cons c rest ih =>
    intro s b
    rw [List.foldl_cons, maxScoreWith_cons, fuzzyStep_some]
    by_cases hgt : s < scoreOf target c
    · rw [if_pos hgt]
      have hmax : max s (scoreOf target c) = scoreOf target c := max_eq_right (le_of_lt hgt)
      rw [hmax]
      obtain ⟨b', heq, hdisj⟩ := ih (scoreOf target c) c
      refine ⟨b', heq, Or.inl ⟨lt_of_lt_of_le hgt (maxScoreWith_ge _ _ _), ?_⟩⟩
      rcases hdisj with ⟨hlt, hfind⟩ | ⟨rfl, hm⟩
      · rw [List.find?_cons_of_neg _ (by simp [ne_of_lt hlt]), hfind]
      · rw [List.find?_cons_of_pos _ (by simp [hm])]
    · rw [if_neg hgt]
      have hle : scoreOf target c ≤ s := le_of_not_lt hgt
      have hmax : max s (scoreOf target c) = s := max_eq_left hle
      rw [hmax]
      obtain ⟨b', heq, hdisj⟩ := ih s b
      refine ⟨b', heq, ?_⟩
      rcases hdisj with ⟨hlt, hfind⟩ | hdone
      · refine Or.inl ⟨hlt, ?_⟩
        rw [List.find?_cons_of_neg _ (by simp [ne_of_lt (lt_of_le_of_lt hle hlt)]), hfind]
      · exact Or.inr hdone

end ScrapeSalaries

/-- Counterexample to claim C1 as stated: with a candidate pool whose only
name normalizes to the empty string and a query that also normalizes to the
empty string, the normalized names are equal (an exact match exists), yet
best_coach_match returns none because of its empty-target guard. -/
theorem c1_counterexample :
    ScrapeSalaries.normalize_name (enc "123") = ScrapeSalaries.normalize_name (enc "456") ∧
    ScrapeSalaries.best_coach_match [⟨1, 7, enc "123", none, 1, 2025⟩] 7 (enc "456") 2025 (86/100) = none := by
  constructor
  · decide
  · rfl

/-- Claim C1 (amended): provided the query normalizes to a nonempty string,
an exact normalized-name match in the pool short-circuits the scoring loop:
the matcher returns an exact-match candidate, ignoring the fuzzy threshold
entirely, and the returned row has the head-coach flag set whenever any
exact-match candidate has it set.  In particular, for pool
["Jon Smith", "Jonathan Smith"] and query "Jon Smith" it returns the
"Jon Smith" row. -/
theorem c1_exact_match_short_circuit (table : List CoachRow) (sid : Nat) (q : List Nat)
    (y : Int) (ms : ℚ)
    (ht : ScrapeSalaries.normalize_name q ≠ [])
    (hex : ∃ c ∈ ScrapeSalaries.candidatesOf table sid y,
      ScrapeSalaries.normalize_name c.name = ScrapeSalaries.normalize_name q) :
    (∃ b, ScrapeSalaries.best_coach_match table sid q y ms = some b ∧
      b ∈ ScrapeSalaries.candidatesOf table sid y ∧
      ScrapeSalaries.normalize_name b.name = ScrapeSalaries.normalize_name q ∧
      ((∃ c ∈ ScrapeSalaries.candidatesOf table sid y,
          ScrapeSalaries.normalize_name c.name = ScrapeSalaries.normalize_name q ∧
          0 < c.is_head_coach) → 0 < b.is_head_coach) ∧
      (∀ ms2 : ℚ, ScrapeSalaries.best_coach_match table sid q y ms2 =
        ScrapeSalaries.best_coach_match table sid q y ms)) ∧
    ScrapeSalaries.best_coach_match
      [⟨1, 7, enc "Jon Smith", none, 0, 2025⟩, ⟨2, 7, enc "Jonathan Smith", none, 0, 2025⟩]
      7 (enc "Jon Smith") 2025 (86/100) = some ⟨1, 7, enc "Jon Smith", none, 0, 2025⟩ := by
  obtain ⟨c0, hc0mem, hc0eq⟩ := hex
  have hcne : ScrapeSalaries.candidatesOf table sid y ≠ [] := List.ne_nil_of_mem hc0mem
  have hc0ex : c0 ∈ ScrapeSalaries.exactMatchesOf (ScrapeSalaries.normalize_name q)
      (ScrapeSalaries.candidatesOf table sid y) := by
    unfold ScrapeSalaries.exactMatchesOf
    exact List.mem_filter.mpr ⟨hc0mem, by simp [hc0eq]⟩
  have hexne : ScrapeSalaries.exactMatchesOf (ScrapeSalaries.normalize_name q)
      (ScrapeSalaries.candidatesOf table sid y) ≠ [] := List.ne_nil_of_mem hc0ex
  have hbr : ∀ ms3 : ℚ, ScrapeSalaries.best_coach_match table sid q y ms3 =
      ScrapeSalaries.pickFirstMax ScrapeSalaries.exKeyGt
        (ScrapeSalaries.exactMatchesOf (ScrapeSalaries.normalize_name q)
          (ScrapeSalaries.candidatesOf table sid y)) := by
    intro ms3
    unfold ScrapeSalaries.best_coach_match
    rw [if_neg (by simpa using ht), if_neg (by simpa using hcne), if_pos hexne]
  constructor
  · obtain ⟨e, erest, hel⟩ := List.exists_cons_of_ne_nil hexne
    have hpick : ∃ b', ScrapeSalaries.pickFirstMax ScrapeSalaries.exKeyGt
        (ScrapeSalaries.exactMatchesOf (ScrapeSalaries.normalize_name q)
          (ScrapeSalaries.candidatesOf table sid y)) = some b' := by
      rw [hel]
      exact ScrapeSalaries.pickFold_exists ScrapeSalaries.exKeyGt erest e
    obtain ⟨b, hbeq⟩ := hpick
    have hspec := ScrapeSalaries.pickFold_spec erest e b (by
      have := hbeq
      rw [hel] at this
      exact this)
    have hbex : b ∈ ScrapeSalaries.exactMatchesOf (ScrapeSalaries.normalize_name q)
        (ScrapeSalaries.candidatesOf table sid y) := by
      rw [hel]
      rcases hspec.1 with rfl | hm
      · exact List.mem_cons_self _ _
      · exact List.mem_cons_of_mem _ hm
    have hbcand := List.mem_of_mem_filter hbex
    have hbname : ScrapeSalaries.normalize_name b.name = ScrapeSalaries.normalize_name q := by
      have := (List.mem_filter.mp hbex).2
      simpa using this
    refine ⟨b, by rw [hbr ms, hbeq], hbcand, hbname, ?_, fun ms2 => by rw [hbr ms2, hbr ms]⟩
    rintro ⟨c', hc'mem, hc'eq, hc'flag⟩
    have hc'ex : c' ∈ ScrapeSalaries.exactMatchesOf (ScrapeSalaries.normalize_name q)
        (ScrapeSalaries.candidatesOf table sid y) := by
      unfold ScrapeSalaries.exactMatchesOf
      exact List.mem_filter.mpr ⟨hc'mem, by simp [hc'eq]⟩
    rw [hel] at hc'ex
    rcases List.mem_cons.mp hc'ex with rfl | hm
    · exact lt_of_lt_of_le hc'flag hspec.2.1
    · exact lt_of_lt_of_le hc'flag (hspec.2.2 c' hm)
  · decide


/-- The fuzzy loop seeds its accumulator from the first candidate. -/
theorem fuzzyStep_none (target : List Nat) (c : CoachRow) :
    ScrapeSalaries.fuzzyStep target none c = some (ScrapeSalaries.scoreOf target c, c) := rfl

/-- Score of the "Jjon Smith" row against query "Jon Smith". -/
theorem score_jjon :
    ScrapeSalaries.scoreOf (ScrapeSalaries.normalize_name (enc "Jon Smith"))
      ⟨1, 7, enc "Jjon Smith", none, 0, 2025⟩ = 18 / 19 := by
  unfold ScrapeSalaries.scoreOf
  rw [show ScrapeSalaries.normalize_name (enc "Jon Smith") = enc "jon smith" from by decide,
      show ScrapeSalaries.normalize_name (⟨1, 7, enc "Jjon Smith", none, 0, 2025⟩ : CoachRow).name =
        enc "jjon smith" from by decide]
  exact name_score_example

/-- Score of the "Jon Smithh" row against query "Jon Smith". -/
theorem score_smithh :
    ScrapeSalaries.scoreOf (ScrapeSalaries.normalize_name (enc "Jon Smith"))
      ⟨2, 7, enc "Jon Smithh", none, 0, 2025⟩ = 18 / 19 := by
  unfold ScrapeSalaries.scoreOf
  rw [show ScrapeSalaries.normalize_name (enc "Jon Smith") = enc "jon smith" from by decide,
      show ScrapeSalaries.normalize_name (⟨2, 7, enc "Jon Smithh", none, 0, 2025⟩ : CoachRow).name =
        enc "jon smithh" from by decide]
  rw [name_score_eval _ _ (by decide)]
  rw [show (enc "jon smith").length = 9 from by decide,
      show (enc "jon smithh").length = 10 from by decide,
      show matchedTotal 10 (enc "jon smith") (enc "jon smithh") = 9 from by decide]
  norm_num

/-- Counterexample to claim C2 as stated: a pool with no exact match in
which two distinct candidates tie at the top fuzzy score 18/19, above the
0.86 threshold.  The matcher does not return none: it returns the first of
the tied candidates. -/
theorem c2_counterexample :
    ScrapeSalaries.normalize_name (enc "Jjon Smith") ≠ ScrapeSalaries.normalize_name (enc "Jon Smith") ∧
    ScrapeSalaries.normalize_name (enc "Jon Smithh") ≠ ScrapeSalaries.normalize_name (enc "Jon Smith") ∧
    (⟨1, 7, enc "Jjon Smith", none, 0, 2025⟩ : CoachRow) ≠ ⟨2, 7, enc "Jon Smithh", none, 0, 2025⟩ ∧
    ScrapeSalaries.scoreOf (ScrapeSalaries.normalize_name (enc "Jon Smith"))
        ⟨1, 7, enc "Jjon Smith", none, 0, 2025⟩ =
      ScrapeSalaries.scoreOf (ScrapeSalaries.normalize_name (enc "Jon Smith"))
        ⟨2, 7, enc "Jon Smithh", none, 0, 2025⟩ ∧
    (86 / 100 : ℚ) ≤ ScrapeSalaries.scoreOf (ScrapeSalaries.normalize_name (enc "Jon Smith"))
        ⟨1, 7, enc "Jjon Smith", none, 0, 2025⟩ ∧
    ScrapeSalaries.best_coach_match
        [⟨1, 7, enc "Jjon Smith", none, 0, 2025⟩, ⟨2, 7, enc "Jon Smithh", none, 0, 2025⟩]
        7 (enc "Jon Smith") 2025 (86 / 100) = some ⟨1, 7, enc "Jjon Smith", none, 0, 2025⟩ := by
  refine ⟨by decide, by decide, by decide, ?_, ?_, ?_⟩
  · rw [score_jjon, score_smithh]
  · rw [score_jjon]; norm_num
  · unfold ScrapeSalaries.best_coach_match
    rw [if_neg (by decide), if_neg (by decide),
        if_neg (not_not_intro (by decide :
          ScrapeSalaries.exactMatchesOf (ScrapeSalaries.normalize_name (enc "Jon Smith"))
            (ScrapeSalaries.candidatesOf
              [⟨1, 7, enc "Jjon Smith", none, 0, 2025⟩, ⟨2, 7, enc "Jon Smithh", none, 0, 2025⟩]
              7 2025) = []))]
    rw [show ScrapeSalaries.candidatesOf
        [⟨1, 7, enc "Jjon Smith", none, 0, 2025⟩, ⟨2, 7, enc "Jon Smithh", none, 0, 2025⟩] 7 2025 =
        [⟨1, 7, enc "Jjon Smith", none, 0, 2025⟩, ⟨2, 7, enc "Jon Smithh", none, 0, 2025⟩] from by decide]
    unfold ScrapeSalaries.fuzzyBest
    rw [List.foldl_cons, fuzzyStep_none, List.foldl_cons, ScrapeSalaries.fuzzyStep_some,
        score_jjon, score_smithh]
    rw [if_neg (by norm_num : ¬ (18 / 19 : ℚ) < 18 / 19)]
    rw [List.foldl_nil]
    show (if (86 / 100 : ℚ) ≤ 18 / 19 then some (⟨1, 7, enc "Jjon Smith", none, 0, 2025⟩ : CoachRow)
      else none) = some ⟨1, 7, enc "Jjon Smith", none, 0, 2025⟩
    rw [if_pos (by norm_num)]

/-- Claim C2 (amended): when no candidate is an exact normalized-name match
and the top fuzzy score reaches the threshold, the matcher returns the
first candidate (in pool order) attaining the top score, rather than none
-- also when several distinct candidates tie at the top score. -/
theorem c2_tie_returns_first (table : List CoachRow) (sid : Nat) (q : List Nat) (y : Int) (ms : ℚ)
    (ht : ScrapeSalaries.normalize_name q ≠ [])
    (hcne : ScrapeSalaries.candidatesOf table sid y ≠ [])
    (hnoex : ScrapeSalaries.exactMatchesOf (ScrapeSalaries.normalize_name q)
      (ScrapeSalaries.candidatesOf table sid y) = [])
    (hms : ms ≤ ScrapeSalaries.maxScore (ScrapeSalaries.normalize_name q)
      (ScrapeSalaries.candidatesOf table sid y)) :
    ∃ b, (ScrapeSalaries.candidatesOf table sid y).find?
        (fun c => decide (ScrapeSalaries.scoreOf (ScrapeSalaries.normalize_name q) c =
          ScrapeSalaries.maxScore (ScrapeSalaries.normalize_name q)
            (ScrapeSalaries.candidatesOf table sid y))) = some b ∧
      ScrapeSalaries.best_coach_match table sid q y ms = some b := by
  obtain ⟨c0, rest, hl⟩ := List.exists_cons_of_ne_nil hcne
  have hbr : ScrapeSalaries.best_coach_match table sid q y ms =
      (match ScrapeSalaries.fuzzyBest (ScrapeSalaries.normalize_name q)
          (ScrapeSalaries.candidatesOf table sid y) with
       | some (s, b) => if ms ≤ s then some b else none
       | none => none) := by
    unfold ScrapeSalaries.best_coach_match
    rw [if_neg (by simpa using ht), if_neg (by simpa using hcne), if_neg (not_not_intro hnoex)]
  rw [hbr]
  rw [hl] at hms ⊢
  obtain ⟨b', heq, hdisj⟩ := ScrapeSalaries.fuzzyFold_spec (ScrapeSalaries.normalize_name q)
    rest (ScrapeSalaries.scoreOf (ScrapeSalaries.normalize_name q) c0) c0
  have hfb : ScrapeSalaries.fuzzyBest (ScrapeSalaries.normalize_name q) (c0 :: rest) =
      some (ScrapeSalaries.maxScoreWith (ScrapeSalaries.normalize_name q)
        (ScrapeSalaries.scoreOf (ScrapeSalaries.normalize_name q) c0) rest, b') := by
    unfold ScrapeSalaries.fuzzyBest
    rw [List.foldl_cons, fuzzyStep_none, heq]
  have hmaxeq : ScrapeSalaries.maxScore (ScrapeSalaries.normalize_name q) (c0 :: rest) =
      ScrapeSalaries.maxScoreWith (ScrapeSalaries.normalize_name q)
        (ScrapeSalaries.scoreOf (ScrapeSalaries.normalize_name q) c0) rest := rfl
  refine ⟨b', ?_, ?_⟩
  · rw [hmaxeq]
    rcases hdisj with ⟨hlt, hfind⟩ | ⟨rfl, hm⟩
    · rw [List.find?_cons_of_neg _ (by simp [ne_of_lt hlt]), hfind]
    · rw [List.find?_cons_of_pos _ (by simp [hm])]
  · rw [hfb]
    show (if ms ≤ ScrapeSalaries.maxScoreWith (ScrapeSalaries.normalize_name q)
        (ScrapeSalaries.scoreOf (ScrapeSalaries.normalize_name q) c0) rest then some b' else none) = some b'
    rw [if_pos (by rw [hmaxeq] at hms; exact hms)]

/-- The top fuzzy score of the tied pool used for the C2 witness. -/
theorem c2_pool_maxscore :
    (86 / 100 : ℚ) ≤ ScrapeSalaries.maxScore (ScrapeSalaries.normalize_name (enc "Jon Smith"))
      (ScrapeSalaries.candidatesOf
        [⟨1, 7, enc "Jjon Smith", none, 0, 2025⟩, ⟨2, 7, enc "Jon Smithh", none, 0, 2025⟩] 7 2025) := by
  rw [show ScrapeSalaries.candidatesOf
      [⟨1, 7, enc "Jjon Smith", none, 0, 2025⟩, ⟨2, 7, enc "Jon Smithh", none, 0, 2025⟩] 7 2025 =
      [⟨1, 7, enc "Jjon Smith", none, 0, 2025⟩, ⟨2, 7, enc "Jon Smithh", none, 0, 2025⟩] from by decide]
  show (86 / 100 : ℚ) ≤ ScrapeSalaries.maxScoreWith (ScrapeSalaries.normalize_name (enc "Jon Smith"))
    (ScrapeSalaries.scoreOf (ScrapeSalaries.normalize_name (enc "Jon Smith"))
      ⟨1, 7, enc "Jjon Smith", none, 0, 2025⟩) [⟨2, 7, enc "Jon Smithh", none, 0, 2025⟩]
  unfold ScrapeSalaries.maxScoreWith
  rw [List.foldl_cons, List.foldl_nil, score_jjon, score_smithh]
  norm_num

/-- Witness for the amended claim C2 at the tied pool of the counterexample. -/
theorem c2_tie_returns_first_witness :
    ∃ b, (ScrapeSalaries.candidatesOf
        [⟨1, 7, enc "Jjon Smith", none, 0, 2025⟩, ⟨2, 7, enc "Jon Smithh", none, 0, 2025⟩] 7 2025).find?
        (fun c => decide (ScrapeSalaries.scoreOf (ScrapeSalaries.normalize_name (enc "Jon Smith")) c =
          ScrapeSalaries.maxScore (ScrapeSalaries.normalize_name (enc "Jon Smith"))
            (ScrapeSalaries.candidatesOf
              [⟨1, 7, enc "Jjon Smith", none, 0, 2025⟩, ⟨2, 7, enc "Jon Smithh", none, 0, 2025⟩] 7 2025))) =
        some b ∧
      ScrapeSalaries.best_coach_match
        [⟨1, 7, enc "Jjon Smith", none, 0, 2025⟩, ⟨2, 7, enc "Jon Smithh", none, 0, 2025⟩]
        7 (enc "Jon Smith") 2025 (86 / 100) = some b :=
  c2_tie_returns_first
    [⟨1, 7, enc "Jjon Smith", none, 0, 2025⟩, ⟨2, 7, enc "Jon Smithh", none, 0, 2025⟩]
    7 (enc "Jon Smith") 2025 (86 / 100) (by decide) (by decide) (by decide) c2_pool_maxscore

/-- Witness for the amended claim C1: the Jon Smith pool, with the
hypotheses of the theorem discharged by computation. -/
theorem c1_exact_match_witness :
    ScrapeSalaries.best_coach_match
      [⟨1, 7, enc "Jon Smith", none, 0, 2025⟩, ⟨2, 7, enc "Jonathan Smith", none, 0, 2025⟩]
      7 (enc "Jon Smith") 2025 (86 / 100) = some ⟨1, 7, enc "Jon Smith", none, 0, 2025⟩ :=
  (c1_exact_match_short_circuit
    [⟨1, 7, enc "Jon Smith", none, 0, 2025⟩, ⟨2, 7, enc "Jonathan Smith", none, 0, 2025⟩]
    7 (enc "Jon Smith") 2025 (86 / 100) (by decide) (by decide)).2

/-! Generic list facts used by the salary-table proofs. -/

theorem find?_eq_none_of_filter_nil {α : Type} (p : α → Bool) (l : List α)
    (h : l.filter p = []) : l.find? p = none := by
  induction l with
  | nil => rfl
  | cons a l ih =>
    rw [List.filter_cons] at h
    by_cases hp : p a = true
    · rw [if_pos hp] at h
      exact absurd h (List.cons_ne_nil _ _)
    · rw [if_neg hp] at h
      rw [List.find?_cons_of_neg _ (by simpa using hp)]
      exact ih h

theorem find?_append_left_none {α : Type} (p : α → Bool) (l1 l2 : List α)
    (h : l1.find? p = none) : (l1 ++ l2).find? p = l2.find? p := by
  induction l1 with
  | nil => rfl
  | cons a l ih =>
    have hpa : p a = false := by
      have := List.find?_eq_none.mp h a (List.mem_cons_self _ _)
      simpa using this
    have hl : l.find? p = none := by
      rw [List.find?_eq_none]
      intro x hx
      exact List.find?_eq_none.mp h x (List.mem_cons_of_mem _ hx)
    rw [List.cons_append, List.find?_cons_of_neg _ (by simpa using hpa)]
    exact ih hl

namespace ScrapeSalaries

/-- The fields of the SalaryRow dataclass of scripts/scrape_salaries.py. -/
structure SalaryRow where
  person_name : List Nat
  title : Option (List Nat)
  department : Option (List Nat)
  year : Option Int
  school_pay : Option Int
  total_pay : Option Int
  source : List Nat
  source_date : List Nat
deriving DecidableEq

/-- A stored row of the salaries table, with the columns touched by
upsert_salary, in rowid order. -/
structure StoredSalary where
  id : Nat
  coach_id : Nat
  year : Option Int
  total_pay : Option Int
  school_pay : Option Int
  source : List Nat
  source_date : List Nat
deriving DecidableEq

/-- The salaries table: rows in rowid order plus the next fresh rowid. -/
structure SalaryTable where
  rows : List StoredSalary
  nextId : Nat
deriving DecidableEq

/-- SQL equality `year = ?`: a NULL year never compares equal. -/
def yearEqSql (a b : Option Int) : Bool :=
  match a, b with
  | some x, some v => decide (x = v)
  | _, _ => false

/-- The WHERE clause of the SELECT in upsert_salary. -/
def salMatches (r : StoredSalary) (cid : Nat) (y : Option Int) (src : List Nat) : Bool :=
  decide (r.coach_id = cid) && yearEqSql r.year y && decide (r.source = src)

/-- Table well-formedness: distinct rowids, all below the next fresh id. -/
def SalaryTableWF (tbl : SalaryTable) : Prop :=
  (tbl.rows.map (fun r => r.id)).Nodup ∧ ∀ r ∈ tbl.rows, r.id < tbl.nextId

/-- upsert_salary from scripts/scrape_salaries.py (the existing-row lookup
is LIMIT 1 in rowid order; the UPDATE touches the row with that rowid, the
INSERT appends a fresh row). -/
def upsert_salary (tbl : SalaryTable) (coach_id : Nat) (salary : SalaryRow)
    (dry_run : Bool) : SalaryTable :=
  if dry_run then tbl
  else
    match tbl.rows.find? (fun r => salMatches r coach_id salary.year salary.source) with
    | some e =>
      { tbl with rows := tbl.rows.map (fun r =>
          if r.id = e.id then
            { r with total_pay := salary.total_pay, school_pay := salary.school_pay,
                     source_date := salary.source_date }
          else r) }
    | none =>
      { rows := tbl.rows ++ [⟨tbl.nextId, coach_id, salary.year, salary.total_pay,
          salary.school_pay, salary.source, salary.source_date⟩],
        nextId := tbl.nextId + 1 }

/-- The salaries rows of a table for one (coach, year, source) triple. -/
def salRowsFor (tbl : SalaryTable) (cid : Nat) (y : Option Int) (src : List Nat) :
    List StoredSalary :=
  tbl.rows.filter (fun r => salMatches r cid y src)

end ScrapeSalaries

/-- Claim C3: salary upsert is idempotent per (coach, year, source) and
append-only across sources.  Upserting s1 then s2 for the same
(cid, year, source) leaves exactly one row for that triple holding the
second call values, and a later upsert s3 for a different source adds a
second fresh row while leaving the first source row unchanged. -/
theorem c3_upsert_salary_idempotent_append_only
    (tbl : ScrapeSalaries.SalaryTable) (cid : Nat)
    (s1 s2 s3 : ScrapeSalaries.SalaryRow) (y : Int)
    (hwf : ScrapeSalaries.SalaryTableWF tbl)
    (hy1 : s1.year = some y) (hy2 : s2.year = some y) (hy3 : s3.year = some y)
    (hsrc12 : s2.source = s1.source) (hsrc3 : s3.source ≠ s1.source)
    (h1 : ScrapeSalaries.salRowsFor tbl cid (some y) s1.source = [])
    (h3 : ScrapeSalaries.salRowsFor tbl cid (some y) s3.source = []) :
    ScrapeSalaries.salRowsFor
        (ScrapeSalaries.upsert_salary (ScrapeSalaries.upsert_salary tbl cid s1 false) cid s2 false)
        cid (some y) s1.source =
      [⟨tbl.nextId, cid, some y, s2.total_pay, s2.school_pay, s1.source, s2.source_date⟩] ∧
    ScrapeSalaries.salRowsFor
        (ScrapeSalaries.upsert_salary
          (ScrapeSalaries.upsert_salary (ScrapeSalaries.upsert_salary tbl cid s1 false) cid s2 false)
          cid s3 false)
        cid (some y) s3.source =
      [⟨tbl.nextId + 1, cid, some y, s3.total_pay, s3.school_pay, s3.source, s3.source_date⟩] ∧
    ScrapeSalaries.salRowsFor
        (ScrapeSalaries.upsert_salary
          (ScrapeSalaries.upsert_salary (ScrapeSalaries.upsert_salary tbl cid s1 false) cid s2 false)
          cid s3 false)
        cid (some y) s1.source =
      ScrapeSalaries.salRowsFor
        (ScrapeSalaries.upsert_salary (ScrapeSalaries.upsert_salary tbl cid s1 false) cid s2 false)
        cid (some y) s1.source := by
  -- notation
  set row1 : ScrapeSalaries.StoredSalary :=
    ⟨tbl.nextId, cid, some y, s1.total_pay, s1.school_pay, s1.source, s1.source_date⟩ with hrow1
  set row2 : ScrapeSalaries.StoredSalary :=
    ⟨tbl.nextId, cid, some y, s2.total_pay, s2.school_pay, s1.source, s2.source_date⟩ with hrow2
  set row3 : ScrapeSalaries.StoredSalary :=
    ⟨tbl.nextId + 1, cid, some y, s3.total_pay, s3.school_pay, s3.source, s3.source_date⟩ with hrow3
  have hnomatch1 : ∀ r ∈ tbl.rows, ScrapeSalaries.salMatches r cid (some y) s1.source = false := by
    intro r hr
    have := find?_eq_none_of_filter_nil _ _ h1
    have := List.find?_eq_none.mp this r hr
    simpa using this
  have hnomatch3 : ∀ r ∈ tbl.rows, ScrapeSalaries.salMatches r cid (some y) s3.source = false := by
    intro r hr
    have := find?_eq_none_of_filter_nil _ _ h3
    have := List.find?_eq_none.mp this r hr
    simpa using this
  -- step 1: insert
  have hfind1 : tbl.rows.find? (fun r => ScrapeSalaries.salMatches r cid s1.year s1.source) = none := by
    rw [hy1]
    exact find?_eq_none_of_filter_nil _ _ h1
  have ht1 : ScrapeSalaries.upsert_salary tbl cid s1 false =
      ⟨tbl.rows ++ [row1], tbl.nextId + 1⟩ := by
    unfold ScrapeSalaries.upsert_salary
    rw [if_neg Bool.false_ne_true, hfind1, hrow1, hy1]
  -- step 2: update in place
  have hp1row1 : ScrapeSalaries.salMatches row1 cid s2.year s2.source = true := by
    rw [hy2, hsrc12, hrow1]
    simp [ScrapeSalaries.salMatches, ScrapeSalaries.yearEqSql]
  have hfind2 : (tbl.rows ++ [row1]).find?
      (fun r => ScrapeSalaries.salMatches r cid s2.year s2.source) = some row1 := by
    rw [find?_append_left_none _ _ _ (by
      rw [List.find?_eq_none]
      intro r hr
      rw [hy2, hsrc12]
      simp [hnomatch1 r hr])]
    simp only [List.find?]
    rw [hp1row1]
  have hmap2 : (tbl.rows ++ [row1]).map (fun r =>
      if r.id = row1.id then
        { r with total_pay := s2.total_pay, school_pay := s2.school_pay,
                 source_date := s2.source_date }
      else r) = tbl.rows ++ [row2] := by
    rw [List.map_append]
    congr 1
    · apply map_eq_self_of
      intro r hr
      rw [if_neg]
      rw [hrow1]
      exact Nat.ne_of_lt (hwf.2 r hr)
    · rw [List.map_singleton, if_pos rfl, hrow1, hrow2]
  have ht2 : ScrapeSalaries.upsert_salary (ScrapeSalaries.upsert_salary tbl cid s1 false) cid s2 false =
      ⟨tbl.rows ++ [row2], tbl.nextId + 1⟩ := by
    rw [ht1]
    unfold ScrapeSalaries.upsert_salary
    rw [if_neg Bool.false_ne_true]
    rw [show (⟨tbl.rows ++ [row1], tbl.nextId + 1⟩ : ScrapeSalaries.SalaryTable).rows =
      tbl.rows ++ [row1] from rfl, hfind2]
    show ScrapeSalaries.SalaryTable.mk
      ((tbl.rows ++ [row1]).map (fun r =>
        if r.id = row1.id then
          { r with total_pay := s2.total_pay, school_pay := s2.school_pay,
                   source_date := s2.source_date }
        else r)) (tbl.nextId + 1) = ⟨tbl.rows ++ [row2], tbl.nextId + 1⟩
    rw [hmap2]
  -- step 3: insert for the other source
  have hfind3 : (tbl.rows ++ [row2]).find?
      (fun r => ScrapeSalaries.salMatches r cid s3.year s3.source) = none := by
    rw [List.find?_eq_none]
    intro r hr
    rcases List.mem_append.mp hr with hr | hr
    · rw [hy3]
      simp [hnomatch3 r hr]
    · rw [List.mem_singleton] at hr
      subst hr
      rw [hy3, hrow2]
      simp [ScrapeSalaries.salMatches, ScrapeSalaries.yearEqSql, Ne.symm hsrc3]
  have ht3 : ScrapeSalaries.upsert_salary
      (ScrapeSalaries.upsert_salary (ScrapeSalaries.upsert_salary tbl cid s1 false) cid s2 false)
      cid s3 false = ⟨tbl.rows ++ [row2] ++ [row3], tbl.nextId + 2⟩ := by
    rw [ht2]
    unfold ScrapeSalaries.upsert_salary
    rw [if_neg Bool.false_ne_true]
    rw [show (⟨tbl.rows ++ [row2], tbl.nextId + 1⟩ : ScrapeSalaries.SalaryTable).rows =
      tbl.rows ++ [row2] from rfl, hfind3]
    rw [hrow3, hy3]
  -- the three conclusions
  have hfrow2 : ScrapeSalaries.salMatches row2 cid (some y) s1.source = true := by
    rw [hrow2]
    simp [ScrapeSalaries.salMatches, ScrapeSalaries.yearEqSql]
  have hfrow2not3 : ScrapeSalaries.salMatches row2 cid (some y) s3.source = false := by
    rw [hrow2]
    simp [ScrapeSalaries.salMatches, ScrapeSalaries.yearEqSql, Ne.symm hsrc3]
  have hfrow3 : ScrapeSalaries.salMatches row3 cid (some y) s3.source = true := by
    rw [hrow3]
    simp [ScrapeSalaries.salMatches, ScrapeSalaries.yearEqSql]
  have hfrow3not1 : ScrapeSalaries.salMatches row3 cid (some y) s1.source = false := by
    rw [hrow3]
    simp [ScrapeSalaries.salMatches, ScrapeSalaries.yearEqSql, hsrc3]
  have hfilter1 : tbl.rows.filter (fun r => ScrapeSalaries.salMatches r cid (some y) s1.source) = [] := h1
  have hfilter3 : tbl.rows.filter (fun r => ScrapeSalaries.salMatches r cid (some y) s3.source) = [] := h3
  refine ⟨?_, ?_, ?_⟩
  · rw [ht2]
    unfold ScrapeSalaries.salRowsFor
    rw [show (⟨tbl.rows ++ [row2], tbl.nextId + 1⟩ : ScrapeSalaries.SalaryTable).rows =
      tbl.rows ++ [row2] from rfl]
    rw [List.filter_append, hfilter1, List.filter_cons, if_pos hfrow2]
    rfl
  · rw [ht3]
    unfold ScrapeSalaries.salRowsFor
    rw [show (⟨tbl.rows ++ [row2] ++ [row3], tbl.nextId + 2⟩ : ScrapeSalaries.SalaryTable).rows =
      tbl.rows ++ [row2] ++ [row3] from rfl]
    rw [List.filter_append, List.filter_append, hfilter3,
        List.filter_cons, if_neg (by simp [hfrow2not3]),
        List.filter_cons, if_pos hfrow3]
    rfl
  · rw [ht3, ht2]
    unfold ScrapeSalaries.salRowsFor
    rw [show (⟨tbl.rows ++ [row2] ++ [row3], tbl.nextId + 2⟩ : ScrapeSalaries.SalaryTable).rows =
      tbl.rows ++ [row2] ++ [row3] from rfl]
    rw [show (⟨tbl.rows ++ [row2], tbl.nextId + 1⟩ : ScrapeSalaries.SalaryTable).rows =
      tbl.rows ++ [row2] from rfl]
    rw [List.filter_append, List.filter_cons, if_neg (by simp [hfrow3not1])]
    simp

/-- Witness for claim C3 at an initially empty table: coach 5, year 2025,
sources usa_today and media_report, with differing pay figures. -/
theorem c3_upsert_salary_witness :
    ScrapeSalaries.salRowsFor
        (ScrapeSalaries.upsert_salary
          (ScrapeSalaries.upsert_salary ⟨[], 1⟩ 5
            ⟨enc "A B", none, none, some 2025, some 100, some 100, enc "usa_today", enc "d1"⟩ false)
          5 ⟨enc "A B", none, none, some 2025, some 200, some 200, enc "usa_today", enc "d2"⟩ false)
        5 (some 2025) (enc "usa_today") =
      [⟨1, 5, some 2025, some 200, some 200, enc "usa_today", enc "d2"⟩] := by
  have h := c3_upsert_salary_idempotent_append_only ⟨[], 1⟩ 5
    ⟨enc "A B", none, none, some 2025, some 100, some 100, enc "usa_today", enc "d1"⟩
    ⟨enc "A B", none, none, some 2025, some 200, some 200, enc "usa_today", enc "d2"⟩
    ⟨enc "A B", none, none, some 2025, some 300, some 300, enc "media_report", enc "d3"⟩
    2025 (by constructor <;> simp [ScrapeSalaries.SalaryTableWF]) rfl rfl rfl rfl
    (by decide) rfl rfl
  exact h.1

namespace ApiMain

/-- A salaries row as read by the API (api/main.py get_coach): rowid,
coach reference, season year, source timestamp and pay figures. -/
structure SalRow where
  id : Nat
  coach_id : Nat
  year : Option Int
  source_date : Option (List Nat)
  total_pay : Option Int
  source : List Nat
deriving DecidableEq

/-- SQLite ordering on a nullable integer column: NULL sorts below every
integer. -/
def optIntLt (a b : Option Int) : Bool :=
  match a, b with
  | none, some _ => true
  | some x, some v => decide (x < v)
  | _, _ => false

/-- SQL COALESCE(source_date, two quotes): a missing date becomes the empty
string. -/
def coalesceDate (d : Option (List Nat)) : List Nat := d.getD []

/-- Strictly-greater under the ORDER BY key
(year DESC, COALESCE(source_date, empty) DESC, id DESC): the row that sorts
first is the maximum under this comparison. -/
def keyGt (k1 k2 : Option Int × List Nat × Nat) : Bool :=
  optIntLt k2.1 k1.1 ||
  (decide (k1.1 = k2.1) &&
    (ScrapeSalaries.lexLtCodes k2.2.1 k1.2.1 ||
     (decide (k1.2.1 = k2.2.1) && decide (k2.2.2 < k1.2.2))))

/-- The ORDER BY key of the authoritative-salary subquery. -/
def keyOf (r : SalRow) : Option Int × List Nat × Nat :=
  (r.year, coalesceDate r.source_date, r.id)

/-- Row a sorts strictly before row b in the subquery ordering. -/
def salKeyGt (a b : SalRow) : Bool := keyGt (keyOf a) (keyOf b)

/-- Insert into a descending-sorted list (stable). -/
def insertSorted (gt : SalRow → SalRow → Bool) (x : SalRow) : List SalRow → List SalRow
  | [] => [x]
  | y :: ys => if gt y x then y :: insertSorted gt x ys else x :: y :: ys

/-- Sort rows descending under gt (models ORDER BY ... DESC). -/
def sortRows (gt : SalRow → SalRow → Bool) : List SalRow → List SalRow
  | [] => []
  | x :: xs => insertSorted gt x (sortRows gt xs)

/-- The WHERE clause of the subquery: rows of this coach and year. -/
def rowsForCoachYear (rows : List SalRow) (cid : Nat) (y : Int) : List SalRow :=
  rows.filter (fun r => decide (r.coach_id = cid) && ScrapeSalaries.yearEqSql r.year (some y))

/-- The authoritative salary row: ORDER BY year DESC,
COALESCE(source_date, empty) DESC, id DESC LIMIT 1 over the rows of one
(coach, year), from get_coach in api/main.py. -/
def authoritative_salary (rows : List SalRow) (cid : Nat) (y : Int) : Option SalRow :=
  (sortRows salKeyGt (rowsForCoachYear rows cid y)).head?

/-! Order facts for the sort key. -/

theorem lexLtCodes_trans : ∀ a b c : List Nat,
    ScrapeSalaries.lexLtCodes a b = true → ScrapeSalaries.lexLtCodes b c = true →
    ScrapeSalaries.lexLtCodes a c = true := by
  intro a
  induction a with
  | nil =>
    intro b c hab hbc
    cases b with
    | nil => simp [ScrapeSalaries.lexLtCodes] at hab
    | cons y bs =>
      cases c with
      | nil => simp [ScrapeSalaries.lexLtCodes] at hbc
      | cons z cs => simp [ScrapeSalaries.lexLtCodes]
  | cons x as ih =>
    intro b c hab hbc
    cases b with
    | nil => simp [ScrapeSalaries.lexLtCodes] at hab
    | cons y bs =>
      cases c with
      | nil => simp [ScrapeSalaries.lexLtCodes] at hbc
      | cons z cs =>
        simp only [ScrapeSalaries.lexLtCodes, Bool.or_eq_true, Bool.and_eq_true,
          decide_eq_true_eq] at hab hbc ⊢
        rcases hab with h1 | ⟨he1, h1⟩ <;> rcases hbc with h2 | ⟨he2, h2⟩
        · left; omega
        · left; omega
        · left; omega
        · right; exact ⟨by omega, ih bs cs h1 h2⟩

theorem lexLtCodes_total : ∀ a b : List Nat,
    a = b ∨ ScrapeSalaries.lexLtCodes a b = true ∨ ScrapeSalaries.lexLtCodes b a = true := by
  intro a
  induction a with
  | nil =>
    intro b
    cases b with
    | nil => exact Or.inl rfl
    | cons y bs => exact Or.inr (Or.inl (by simp [ScrapeSalaries.lexLtCodes]))
  | cons x as ih =>
    intro b
    cases b with
    | nil => exact Or.inr (Or.inr (by simp [ScrapeSalaries.lexLtCodes]))
    | cons y bs =>
      rcases Nat.lt_trichotomy x y with h | h | h
      · exact Or.inr (Or.inl (by simp [ScrapeSalaries.lexLtCodes, h]))
      · subst h
        rcases ih bs with rfl | h | h
        · exact Or.inl rfl
        · exact Or.inr (Or.inl (by simp [ScrapeSalaries.lexLtCodes, h]))
        · exact Or.inr (Or.inr (by simp [ScrapeSalaries.lexLtCodes, h]))
      · exact Or.inr (Or.inr (by simp [ScrapeSalaries.lexLtCodes, h]))

theorem optIntLt_trans {a b c : Option Int} (h1 : optIntLt a b = true)
    (h2 : optIntLt b c = true) : optIntLt a c = true := by
  cases a <;> cases b <;> cases c <;> (simp_all [optIntLt]; try omega)

theorem optIntLt_trichotomy (a b : Option Int) :
    a = b ∨ optIntLt a b = true ∨ optIntLt b a = true := by
  cases a <;> cases b <;> (simp [optIntLt]; try omega)

theorem keyGt_trans {k1 k2 k3 : Option Int × List Nat × Nat}
    (h1 : keyGt k1 k2 = true) (h2 : keyGt k2 k3 = true) : keyGt k1 k3 = true := by
  obtain ⟨y1, d1, i1⟩ := k1
  obtain ⟨y2, d2, i2⟩ := k2
  obtain ⟨y3, d3, i3⟩ := k3
  simp only [keyGt, Bool.or_eq_true, Bool.and_eq_true, decide_eq_true_eq] at h1 h2 ⊢
  rcases h1 with h1 | ⟨he1, h1⟩
  · rcases h2 with h2 | ⟨he2, h2⟩
    · exact Or.inl (optIntLt_trans h2 h1)
    · rw [he2] at h1
      exact Or.inl h1
  · rcases h2 with h2 | ⟨he2, h2⟩
    · rw [he1]
      exact Or.inl h2
    · refine Or.inr ⟨he1.trans he2, ?_⟩
      rcases h1 with h1 | ⟨hd1, h1⟩
      · rcases h2 with h2 | ⟨hd2, h2⟩
        · exact Or.inl (lexLtCodes_trans d3 d2 d1 h2 h1)
        · rw [hd2] at h1
          exact Or.inl h1
      · rcases h2 with h2 | ⟨hd2, h2⟩
        · rw [hd1]
          exact Or.inl h2
        · exact Or.inr ⟨hd1.trans hd2, by omega⟩

theorem keyGt_total {k1 k2 : Option Int × List Nat × Nat} (h : k1.2.2 ≠ k2.2.2) :
    keyGt k1 k2 = true ∨ keyGt k2 k1 = true := by
  obtain ⟨y1, d1, i1⟩ := k1
  obtain ⟨y2, d2, i2⟩ := k2
  simp only at h
  simp only [keyGt, Bool.or_eq_true, Bool.and_eq_true, decide_eq_true_eq]
  rcases optIntLt_trichotomy y1 y2 with rfl | hy | hy
  · rcases lexLtCodes_total d1 d2 with rfl | hd | hd
    · rcases Nat.lt_trichotomy i1 i2 with hi | hi | hi
      · exact Or.inr (Or.inr ⟨rfl, Or.inr ⟨rfl, hi⟩⟩)
      · exact absurd hi h
      · exact Or.inl (Or.inr ⟨rfl, Or.inr ⟨rfl, hi⟩⟩)
    · exact Or.inr (Or.inr ⟨rfl, Or.inl hd⟩)
    · exact Or.inl (Or.inr ⟨rfl, Or.inl hd⟩)
  · exact Or.inr (Or.inl hy)
  · exact Or.inl (Or.inl hy)

theorem insertSorted_length (gt : SalRow → SalRow → Bool) (x : SalRow) :
    ∀ l : List SalRow, (insertSorted gt x l).length = l.length + 1 := by
  intro l
  induction l with
  | nil => rfl
  | cons y ys ih =>
    unfold insertSorted
    by_cases h : gt y x = true
    · rw [if_pos h]
      simp [ih]
    · rw [if_neg h]
      simp

theorem sortRows_length (gt : SalRow → SalRow → Bool) :
    ∀ l : List SalRow, (sortRows gt l).length = l.length := by
  intro l
  induction l with
  | nil => rfl
  | cons x xs ih =>
    unfold sortRows
    rw [insertSorted_length, ih]
    simp

theorem insertSorted_mem (gt : SalRow → SalRow → Bool) (x : SalRow) :
    ∀ (l : List SalRow) (z : SalRow), z ∈ insertSorted gt x l → z = x ∨ z ∈ l := by
  intro l
  induction l with
  | nil =>
    intro z hz
    simp [insertSorted] at hz
    exact Or.inl hz
  | cons y ys ih =>
    intro z hz
    unfold insertSorted at hz
    by_cases h : gt y x = true
    · rw [if_pos h] at hz
      rcases List.mem_cons.mp hz with rfl | hz
      · exact Or.inr (List.mem_cons_self _ _)
      · rcases ih z hz with hz | hz
        · exact Or.inl hz
        · exact Or.inr (List.mem_cons_of_mem _ hz)
    · rw [if_neg h] at hz
      rcases List.mem_cons.mp hz with rfl | hz
      · exact Or.inl rfl
      · exact Or.inr hz

/-- The head of the descending sort dominates every other element, when the
comparison is transitive and total on the elements of the list. -/
theorem sortRows_head_dominates (gt : SalRow → SalRow → Bool)
    (htrans : ∀ a b c, gt a b = true → gt b c = true → gt a c = true) :
    ∀ (l : List SalRow) (r : SalRow),
      (∀ a b, a ∈ l → b ∈ l → a ≠ b → gt a b = true ∨ gt b a = true) →
      (sortRows gt l).head? = some r →
      r ∈ l ∧ ∀ x ∈ l, x ≠ r → gt r x = true := by
  intro l
  induction l with
  | nil => intro r _ h; simp [sortRows] at h
  | cons x xs ih =>
    intro r htotal h
    unfold sortRows at h
    match hs : sortRows gt xs with
    | [] =>
      have hxs : xs = [] := by
        have := sortRows_length gt xs
        rw [hs] at this
        exact List.eq_nil_of_length_eq_zero this.symm
      rw [hs] at h
      simp [insertSorted] at h
      subst h
      subst hxs
      exact ⟨List.mem_cons_self _ _, by simp⟩
    | hd :: tl =>
      rw [hs] at h
      have hih := ih hd (fun a b ha hb hab =>
        htotal a b (List.mem_cons_of_mem _ ha) (List.mem_cons_of_mem _ hb) hab)
        (by rw [hs]; rfl)
      unfold insertSorted at h
      by_cases hcmp : gt hd x = true
      · rw [if_pos hcmp] at h
        simp only [List.head?_cons, Option.some.injEq] at h
        subst h
        refine ⟨List.mem_cons_of_mem _ hih.1, ?_⟩
        intro z hz hzr
        rcases List.mem_cons.mp hz with rfl | hz
        · exact hcmp
        · exact hih.2 z hz hzr
      · rw [if_neg hcmp] at h
        simp only [List.head?_cons, Option.some.injEq] at h
        subst h
        refine ⟨List.mem_cons_self _ _, ?_⟩
        intro z hz hzr
        have hrhd : x = hd ∨ gt x hd = true := by
          by_cases hrh : x = hd
          · exact Or.inl hrh
          · rcases htotal x hd (List.mem_cons_self _ _)
              (List.mem_cons_of_mem _ hih.1) hrh with hg | hg
            · exact Or.inr hg
            · exact absurd hg hcmp
        rcases List.mem_cons.mp hz with rfl | hz
        · exact absurd rfl hzr
        · by_cases hzhd : z = hd
          · subst hzhd
            rcases hrhd with hrhd | hrhd
            · exact absurd hrhd.symm hzr
            · exact hrhd
          · have hdz := hih.2 z hz hzhd
            rcases hrhd with rfl | hrhd
            · exact hdz
            · exact htrans x hd z hrhd hdz

end ApiMain

/-- Claim C4: the authoritative salary served for a coach is the first row
among all salary rows of that (coach, year) under the ordering
(year DESC, sourceDate DESC, rowId DESC): the selected row belongs to the
group and sorts strictly before every other row of the group, with the
rowid as final tie-break (rowids assumed distinct, as for a primary key). -/
theorem c4_authoritative_salary_first_row (rows : List ApiMain.SalRow) (cid : Nat) (y : Int)
    (r : ApiMain.SalRow)
    (hnodup : ((ApiMain.rowsForCoachYear rows cid y).map (fun x => x.id)).Nodup)
    (hsel : ApiMain.authoritative_salary rows cid y = some r) :
    r ∈ rows ∧ r.coach_id = cid ∧ r.year = some y ∧
    ∀ x ∈ rows, x.coach_id = cid → x.year = some y → x ≠ r →
      ApiMain.salKeyGt r x = true := by
  unfold ApiMain.authoritative_salary at hsel
  have hdom := ApiMain.sortRows_head_dominates ApiMain.salKeyGt
    (fun a b c h1 h2 => ApiMain.keyGt_trans h1 h2)
    (ApiMain.rowsForCoachYear rows cid y) r
    (fun a b ha hb hab => by
      have hid : a.id ≠ b.id := by
        intro hid
        exact hab (List.inj_on_of_nodup_map hnodup ha hb hid)
      exact ApiMain.keyGt_total (by simpa [ApiMain.keyOf] using hid))
    hsel
  have hmem := hdom.1
  have hr := List.mem_filter.mp hmem
  have hprops : r.coach_id = cid ∧ r.year = some y := by
    have hflt := hr.2
    simp only [Bool.and_eq_true, decide_eq_true_eq] at hflt
    refine ⟨hflt.1, ?_⟩
    have h2 := hflt.2
    unfold ScrapeSalaries.yearEqSql at h2
    cases hy : r.year with
    | none => rw [hy] at h2; simp at h2
    | some v =>
      rw [hy] at h2
      simp only [decide_eq_true_eq] at h2
      rw [h2]
  refine ⟨hr.1, hprops.1, hprops.2, ?_⟩
  intro x hx hxc hxy hxr
  refine hdom.2 x ?_ hxr
  unfold ApiMain.rowsForCoachYear
  refine List.mem_filter.mpr ⟨hx, ?_⟩
  simp [hxc, hxy, ScrapeSalaries.yearEqSql]

/-- Witness for claim C4: two sources for coach 5, year 2025; the row with
the fresher source date wins regardless of source type. -/
theorem c4_authoritative_salary_witness :
    (⟨2, 5, some 2025, some (enc "2025-06-01"), some 200, enc "media_report"⟩ : ApiMain.SalRow) ∈
      [(⟨1, 5, some 2025, some (enc "2025-01-01"), some 100, enc "usa_today"⟩ : ApiMain.SalRow),
       ⟨2, 5, some 2025, some (enc "2025-06-01"), some 200, enc "media_report"⟩] ∧
    (⟨2, 5, some 2025, some (enc "2025-06-01"), some 200, enc "media_report"⟩ : ApiMain.SalRow).coach_id = 5 ∧
    (⟨2, 5, some 2025, some (enc "2025-06-01"), some 200, enc "media_report"⟩ : ApiMain.SalRow).year = some 2025 ∧
    ∀ x ∈ [(⟨1, 5, some 2025, some (enc "2025-01-01"), some 100, enc "usa_today"⟩ : ApiMain.SalRow),
       ⟨2, 5, some 2025, some (enc "2025-06-01"), some 200, enc "media_report"⟩],
      x.coach_id = 5 → x.year = some 2025 →
      x ≠ ⟨2, 5, some 2025, some (enc "2025-06-01"), some 200, enc "media_report"⟩ →
      ApiMain.salKeyGt ⟨2, 5, some 2025, some (enc "2025-06-01"), some 200, enc "media_report"⟩ x = true :=
  c4_authoritative_salary_first_row
    [⟨1, 5, some 2025, some (enc "2025-01-01"), some 100, enc "usa_today"⟩,
     ⟨2, 5, some 2025, some (enc "2025-06-01"), some 200, enc "media_report"⟩]
    5 2025 ⟨2, 5, some 2025, some (enc "2025-06-01"), some 200, enc "media_report"⟩
    (by decide) (by decide)

/-- ASCII uppercase letter (Python str.isupper on one character, ASCII). -/
def isUpperCode (n : Nat) : Bool := 65 ≤ n && n ≤ 90

namespace ApiMain

/-- A row fetched by the career query of get_coach_career (api/main.py):
year, position, head-coach flag, school display name and slug, in the
ORDER BY year ASC, school ASC, position ASC order of the query. -/
structure CareerRec where
  year : Option Int
  position : Option (List Nat)
  is_head_coach : Option Nat
  school : Option (List Nat)
  school_slug : Option (List Nat)
deriving DecidableEq

/-- The dedup key (year, school_slug, school, position, is_head_coach or 0). -/
def recKey (r : CareerRec) :
    Option Int × Option (List Nat) × Option (List Nat) × Option (List Nat) × Nat :=
  (r.year, r.school_slug, r.school, r.position, r.is_head_coach.getD 0)

/-- De-duplication of identical career entries, keeping first occurrences
(the seen-set loop of get_coach_career). -/
def dedupGo (seen : List (Option Int × Option (List Nat) × Option (List Nat) ×
    Option (List Nat) × Nat)) : List CareerRec → List CareerRec
  | [] => []
  | r :: rest =>
    if recKey r ∈ seen then dedupGo seen rest
    else r :: dedupGo (recKey r :: seen) rest

/-- One career stint: school, slug, position and the inclusive year span. -/
structure Stint where
  school : List Nat
  school_slug : Option (List Nat)
  position : Option (List Nat)
  start_year : Int
  end_year : Int
deriving DecidableEq

/-- Python `rec.get(school) or Unknown`: None or the empty string become
the Unknown placeholder. -/
def orUnknown (s : Option (List Nat)) : List Nat :=
  match s with
  | some cs => if cs = [] then enc "Unknown" else cs
  | none => enc "Unknown"

/-- A fresh one-year stint from a record with a valid year. -/
def recStint (rec : CareerRec) (y : Int) : Stint :=
  ⟨orUnknown rec.school, rec.school_slug, rec.position, y, y⟩

/-- One iteration of the stint loop of get_coach_career: a record with no
year is skipped; a record at the same (slug, school, position) whose year
is exactly one past the current stint end extends the stint; any other
record closes the current stint and starts a new one. -/
def stintStep (acc : List Stint × Option Stint) (rec : CareerRec) :
    List Stint × Option Stint :=
  match rec.year with
  | none => acc
  | some y =>
    match acc.2 with
    | none => (acc.1, some (recStint rec y))
    | some cur =>
      if cur.school_slug = rec.school_slug ∧ cur.school = orUnknown rec.school ∧
         cur.position = rec.position ∧ y = cur.end_year + 1 then
        (acc.1, some { cur with end_year := y })
      else
        (acc.1 ++ [cur], some (recStint rec y))

/-- The stint loop, with the trailing current stint flushed at the end. -/
def buildStints (recs : List CareerRec) : List Stint :=
  match recs.foldl stintStep ([], none) with
  | (stints, none) => stints
  | (stints, some cur) => stints ++ [cur]

/-- Strictly greater under the final sort key (end_year, start_year). -/
def stintKeyGt (a b : Stint) : Bool :=
  decide (b.end_year < a.end_year) ||
  (decide (a.end_year = b.end_year) && decide (b.start_year < a.start_year))

/-- Stable insertion for the descending stint sort. -/
def insStint (x : Stint) : List Stint → List Stint
  | [] => [x]
  | y :: ys => if stintKeyGt y x then y :: insStint x ys else x :: y :: ys

/-- Python list.sort(key, reverse=True): stable, most recent stint first. -/
def sortStints : List Stint → List Stint
  | [] => []
  | x :: xs => insStint x (sortStints xs)

/-- get_coach_career from api/main.py, applied to the fetched career rows:
dedup, group into stints, sort most recent first. -/
def get_coach_career (recs : List CareerRec) : List Stint :=
  sortStints (buildStints (dedupGo [] recs))

/-- The School A / Position X yearly record of the specification scenario. -/
def recA (y : Int) : CareerRec :=
  ⟨some y, some (enc "Position X"), some 1, some (enc "School A"), some (enc "school-a")⟩

end ApiMain

/-- Claim C5: consecutive years at one school/position collapse into one
stint (2019-2021 in the first scenario); a gap year splits the run into two
one-year stints even at the identical school/position, ordered most recent
first; and in general any record whose year is not exactly one greater than
the current stint end year closes the current stint and starts a new one. -/
theorem c5_career_timeline (stints : List ApiMain.Stint) (cur : ApiMain.Stint)
    (rec : ApiMain.CareerRec) (y : Int)
    (hy : rec.year = some y) (hgap : y ≠ cur.end_year + 1) :
    ApiMain.get_coach_career [ApiMain.recA 2019, ApiMain.recA 2020, ApiMain.recA 2021] =
      [⟨enc "School A", some (enc "school-a"), some (enc "Position X"), 2019, 2021⟩] ∧
    ApiMain.get_coach_career [ApiMain.recA 2019, ApiMain.recA 2021] =
      [⟨enc "School A", some (enc "school-a"), some (enc "Position X"), 2021, 2021⟩,
       ⟨enc "School A", some (enc "school-a"), some (enc "Position X"), 2019, 2019⟩] ∧
    ApiMain.stintStep (stints, some cur) rec = (stints ++ [cur], some (ApiMain.recStint rec y)) := by
  refine ⟨by decide, by decide, ?_⟩
  unfold ApiMain.stintStep
  rw [hy]
  exact if_neg (fun hcond => hgap hcond.2.2.2)

/-- Witness for claim C5: a gap record (year 2021 after a stint ending in
2019 at the same school and position) starts a new stint. -/
theorem c5_career_timeline_witness :
    ApiMain.stintStep
      ([], some ⟨enc "School A", some (enc "school-a"), some (enc "Position X"), 2019, 2019⟩)
      (ApiMain.recA 2021) =
    ([⟨enc "School A", some (enc "school-a"), some (enc "Position X"), 2019, 2019⟩],
     some (ApiMain.recStint (ApiMain.recA 2021) 2021)) :=
  (c5_career_timeline []
    ⟨enc "School A", some (enc "school-a"), some (enc "Position X"), 2019, 2019⟩
    (ApiMain.recA 2021) 2021 rfl (by decide)).2.2

/-!  Money parsing.  Python float arithmetic on the short decimal strings
handled here is modelled by exact decimal values num / 10 ^ scale; for
every input appearing in the claims the float computation of the source is
exact or rounds to the same integer (checked against CPython), so the
comparisons and truncations below agree with the source. -/

/-- ASCII digit. -/
def isDigitCode (n : Nat) : Bool := 48 ≤ n && n ≤ 57

/-- Value of a digit string. -/
def digitsVal (cs : List Nat) : Nat := cs.foldl (fun a c => a * 10 + (c - 48)) 0

/-- An exact decimal value num / 10 ^ scale. -/
structure DecVal where
  num : Int
  scale : Nat
deriving DecidableEq

/-- Python int() on the value: truncation toward zero. -/
def decTrunc (d : DecVal) : Int := Int.tdiv d.num (10 ^ d.scale)

/-- Multiplication by an integer unit factor. -/
def decMulNat (d : DecVal) (m : Nat) : DecVal := ⟨d.num * m, d.scale⟩

/-- Python float() of an unsigned decimal literal: digits with at most one
dot and at least one digit. -/
def parseUnsignedDecimal (cs : List Nat) : Option DecVal :=
  if cs.count 46 = 0 then
    if cs ≠ [] ∧ cs.all isDigitCode then some ⟨digitsVal cs, 0⟩ else none
  else if cs.count 46 = 1 then
    let ip := cs.takeWhile (fun c => decide (c ≠ 46))
    let fp := (cs.dropWhile (fun c => decide (c ≠ 46))).tail
    if (ip ≠ [] ∨ fp ≠ []) ∧ ip.all isDigitCode ∧ fp.all isDigitCode then
      some ⟨(digitsVal ip) * 10 ^ fp.length + digitsVal fp, fp.length⟩
    else none
  else none

/-- Python float() on the character material that survives the money
cleaning: an optional sign then an unsigned decimal; anything else raises
ValueError, modelled as none. -/
def pyFloatOfCodes (cs : List Nat) : Option DecVal :=
  match cs with
  | 45 :: rest => (parseUnsignedDecimal rest).map (fun d => ⟨-d.num, d.scale⟩)
  | 43 :: rest => parseUnsignedDecimal rest
  | _ => parseUnsignedDecimal cs

namespace ScrapeSalaries

/-- Character class kept by re.sub(r"[^0-9.\\-]", "", value) in parse_money
of scripts/scrape_salaries.py: digits, dot, backslash, hyphen. -/
def moneyKeepChar (n : Nat) : Bool := isDigitCode n || n = 46 || n = 92 || n = 45

/-- parse_money from scripts/scrape_salaries.py: strip everything outside
the class, then int(float(...)), with None for the unparseable. -/
def parse_money (v : Option (List Nat)) : Option Int :=
  match v with
  | none => none
  | some cs =>
    let cleaned := cs.filter moneyKeepChar
    if cleaned = [] then none
    else (pyFloatOfCodes cleaned).map decTrunc

end ScrapeSalaries

namespace MediaEnrichment

/-- normalize_money from scripts/media_enrichment.py: float of the amount
text with commas removed, scaled by the unit suffix, truncated to int. -/
def normalize_money (amountText : List Nat) (unit : Option (List Nat)) : Option Int :=
  match pyFloatOfCodes (amountText.filter (fun c => decide (c ≠ 44))) with
  | none => none
  | some d =>
    let d2 := match unit with
      | none => d
      | some u =>
        let ul := u.map lowerCode
        if ul = enc "million" ∨ ul = enc "m" then decMulNat d 1000000
        else if ul = enc "thousand" ∨ ul = enc "k" then decMulNat d 1000
        else d
    some (decTrunc d2)

/-- Greedy (?:,\d{3})+ of MONEY_PATTERN: consume as many comma-triples
as possible; the fuel only forces termination (|cs| is always enough). -/
def takeCommaGroups : Nat → List Nat → List Nat × List Nat
  | 0, cs => ([], cs)
  | fuel + 1, cs =>
    match cs with
    | 44 :: d1 :: d2 :: d3 :: rest =>
      if isDigitCode d1 && isDigitCode d2 && isDigitCode d3 then
        let t := takeCommaGroups fuel rest
        (44 :: d1 :: d2 :: d3 :: t.1, t.2)
      else ([], cs)
    | _ => ([], cs)

/-- One backtracking choice of \d{1,3} followed by at least one
comma-triple. -/
def tryAlt1 (k : Nat) (cs : List Nat) : Option (List Nat × List Nat) :=
  let ds := cs.take k
  if ds.length = k && ds.all isDigitCode then
    let rest := cs.drop k
    let t := takeCommaGroups rest.length rest
    if t.1 = [] then none else some (ds ++ t.1, t.2)
  else none

/-- First alternative of the amount group of MONEY_PATTERN, with the greedy
3-2-1 backtracking order of \d{1,3}. -/
def alt1At (cs : List Nat) : Option (List Nat × List Nat) :=
  (tryAlt1 3 cs).orElse (fun _ => (tryAlt1 2 cs).orElse (fun _ => tryAlt1 1 cs))

/-- Second alternative \d+(\.\d+)? of the amount group. -/
def alt2At (cs : List Nat) : Option (List Nat × List Nat) :=
  let ds := cs.takeWhile isDigitCode
  if ds = [] then none
  else
    let rest := cs.drop ds.length
    match rest with
    | 46 :: r2 =>
      let fs := r2.takeWhile isDigitCode
      if fs = [] then some (ds, rest)
      else some (ds ++ 46 :: fs, r2.drop fs.length)
    | _ => some (ds, rest)

/-- The optional unit group (million|m|thousand|k), case-insensitive, in
the alternation order of the pattern. -/
def unitAt (cs : List Nat) : Option (List Nat) :=
  if (cs.take 7).map lowerCode = enc "million" then some (cs.take 7)
  else if (cs.take 1).map lowerCode = enc "m" then some (cs.take 1)
  else if (cs.take 8).map lowerCode = enc "thousand" then some (cs.take 8)
  else if (cs.take 1).map lowerCode = enc "k" then some (cs.take 1)
  else none

/-- Match MONEY_PATTERN at the start of the text, returning the amount
group and the optional unit group. -/
def matchMoneyAt (cs : List Nat) : Option (List Nat × Option (List Nat)) :=
  let cs1 := match cs with | 36 :: r => r | _ => cs
  let cs2 := cs1.dropWhile isWsCode
  match (alt1At cs2).orElse (fun _ => alt2At cs2) with
  | none => none
  | some (g1, rest) => some (g1, unitAt (rest.dropWhile isWsCode))

/-- The leftmost MONEY_PATTERN match of a text (re.search / the first
iteration of re.finditer in extract_salary). -/
def searchMoney : List Nat → Option (List Nat × Option (List Nat))
  | [] => none
  | c :: rest =>
    match matchMoneyAt (c :: rest) with
    | some m => some m
    | none => searchMoney rest

/-- The money figure of the first money mention of a text: the parsing core
of extract_salary (MONEY_PATTERN groups fed to normalize_money). -/
def firstMoneyMention (cs : List Nat) : Option Int :=
  match searchMoney cs with
  | none => none
  | some (g1, g2) => normalize_money g1 g2

end MediaEnrichment

/-- Counterexample to claim C6 as stated: parse_money of
scripts/scrape_salaries.py (one of the two cited money parsers) has no unit
handling, so "$1.2 million" parses to 1, not 1200000. -/
theorem c6_counterexample :
    ScrapeSalaries.parse_money (some (enc "$1.2 million")) = some 1 ∧
    ScrapeSalaries.parse_money (some (enc "$1.2 million")) ≠ some 1200000 := by
  constructor
  · decide
  · decide

/-- Claim C6 (amended): the media-enrichment money parser (MONEY_PATTERN
plus normalize_money) handles currency symbol, thousands separators and the
million/m and thousand/k suffixes: "$1.2 million" gives 1200000 and
"$750,000" gives 750000, with none (never zero) for "N/A" and the empty
string; parse_money of scrape_salaries.py strips symbols and separators but
ignores unit words, so it yields 750000 for "$750,000" but 1 for
"$1.2 million", and none (never zero) for "N/A", the empty string and None. -/
theorem c6_money_parsing :
    MediaEnrichment.firstMoneyMention (enc "$1.2 million") = some 1200000 ∧
    MediaEnrichment.firstMoneyMention (enc "$750,000") = some 750000 ∧
    MediaEnrichment.firstMoneyMention (enc "N/A") = none ∧
    MediaEnrichment.firstMoneyMention (enc "") = none ∧
    ScrapeSalaries.parse_money (some (enc "$750,000")) = some 750000 ∧
    ScrapeSalaries.parse_money (some (enc "$1.2 million")) = some 1 ∧
    ScrapeSalaries.parse_money (some (enc "N/A")) = none ∧
    ScrapeSalaries.parse_money (some (enc "")) = none ∧
    ScrapeSalaries.parse_money none = none := by
  refine ⟨?_, ?_, ?_, ?_, ?_, ?_, ?_, ?_, ?_⟩ <;> decide

namespace FixDuplicates

/-- The .replace(hyphen, nothing).replace(apostrophe, nothing) cleanup of
fix_malformed_name. -/
def stripHyphApos (cs : List Nat) : List Nat :=
  cs.filter (fun c => decide (c ≠ 45) && decide (c ≠ 39))

/-- Python substring membership. -/
def isSubList (needle : List Nat) : List Nat → Bool
  | [] => needle.isEmpty
  | c :: rest => needle.isPrefixOf (c :: rest) || isSubList needle rest

/-- re.match of the anchored pattern uppercase-dot-whitespace used to
reject bare initials. -/
def matchInitialDot (suf : List Nat) : Bool :=
  match suf with
  | a :: b :: c :: _ => isUpperCode a && decide (b = 46) && isWsCode c
  | _ => false

/-- The candidate search loop of fix_malformed_name (scripts/fix_duplicates.py),
run once the guards have passed: try each split point i of the first token,
keep the split with the longest matching sort-key prefix. -/
def fixCore (cs : List Nat) : List Nat :=
  let firstPart := (splitWs cs).headI
  let rest := joinSpace (splitWs cs).tail
  let restParts := splitWs rest
  let lastName := restParts.getLastD []
  let lastNorm := stripHyphApos (lastName.map lowerCode)
  let best := (List.range' 3 (firstPart.length - 4)).foldl (fun best i =>
    let pre := stripHyphApos ((firstPart.take i).map lowerCode)
    let suf := firstPart.drop i
    if suf.isEmpty || !isUpperCode suf.headI then best
    else if isSubList pre lastNorm || isSubList lastNorm pre ||
        pre.isSuffixOf lastNorm || lastNorm.isSuffixOf pre then
      match best with
      | none => some (pre, suf)
      | some (bp, bs) => if bp.length < pre.length then some (pre, suf) else some (bp, bs)
    else best) none
  match best with
  | none => cs
  | some (_, suf) =>
    if matchInitialDot suf || decide (suf.length ≤ 2) then cs
    else suf ++ 32 :: rest

/-- fix_malformed_name from scripts/fix_duplicates.py. -/
def fix_malformed_name (cs : List Nat) : List Nat :=
  if cs.contains 32 = false then cs
  else if (splitWs cs).length < 2 then cs
  else if splitWs (joinSpace (splitWs cs).tail) = [] then cs
  else if ((splitWs cs).headI).length < 8 then cs
  else fixCore cs

end FixDuplicates

/-- Claim C7: the malformed-name repair maps the concatenated sort-key name
to the intended name, leaves a normal two-word name untouched, and more
generally returns any name whose first whitespace token is shorter than 8
characters exactly as given. -/
theorem c7_fix_malformed_name (cs : List Nat)
    (hshort : ((splitWs cs).headI).length < 8) :
    FixDuplicates.fix_malformed_name (enc "Dottin-CarterDennis Dottin-Carter") =
      enc "Dennis Dottin-Carter" ∧
    FixDuplicates.fix_malformed_name (enc "John Smith") = enc "John Smith" ∧
    FixDuplicates.fix_malformed_name cs = cs := by
  refine ⟨by decide, by decide, ?_⟩
  unfold FixDuplicates.fix_malformed_name
  split_ifs with h1 h2 h3
  all_goals rfl

/-- Witness for claim C7 at a name with a short first token and a long
second token. -/
theorem c7_fix_malformed_name_witness :
    FixDuplicates.fix_malformed_name (enc "Al Rutherford-Jamison") = enc "Al Rutherford-Jamison" :=
  (c7_fix_malformed_name (enc "Al Rutherford-Jamison") (by decide)).2.2

namespace TrackChanges

/-- Collapse whitespace runs to single spaces, strip, lower-case: the body
of normalize_text in scripts/track_changes.py on a truthy string (re.sub of
whitespace runs followed by strip equals split-and-rejoin). -/
def tcNormStr (cs : List Nat) : List Nat := (joinSpace (splitWs cs)).map lowerCode

/-- normalize_text from scripts/track_changes.py: falsy input becomes the
empty string. -/
def normalize_text (v : Option (List Nat)) : List Nat :=
  match v with
  | none => []
  | some cs => if cs = [] then [] else tcNormStr cs

/-- One snapshot entry: coach name, school, conference. -/
structure SnapCoach where
  coach : Option (List Nat)
  school : Option (List Nat)
  conference : Option (List Nat)
deriving DecidableEq

/-- A value of the school/coach indexes. -/
structure IndexEntry where
  coach : Option (List Nat)
  school : List Nat
  conference : Option (List Nat)
deriving DecidableEq

/-- Python dict insertion: overwrite in place, append new keys. -/
def dinsert (k : List Nat) (v : IndexEntry) :
    List (List Nat × IndexEntry) → List (List Nat × IndexEntry)
  | [] => [(k, v)]
  | (k0, v0) :: rest => if k0 = k then (k0, v) :: rest else (k0, v0) :: dinsert k v rest

/-- Python dict lookup. -/
def dlookup (k : List Nat) : List (List Nat × IndexEntry) → Option IndexEntry
  | [] => none
  | (k0, v0) :: rest => if k0 = k then some v0 else dlookup k rest

/-- build_school_index from scripts/track_changes.py: key the last entry of
each school (normalized school name), skipping falsy schools. -/
def build_school_index (coaches : List SnapCoach) : List (List Nat × IndexEntry) :=
  coaches.foldl (fun idx c =>
    match c.school with
    | none => idx
    | some s => if s = [] then idx else dinsert (tcNormStr s) ⟨c.coach, s, c.conference⟩ idx) []

/-- build_coach_index from scripts/track_changes.py: key the last entry of
each coach name, skipping entries with a falsy name or school. -/
def build_coach_index (coaches : List SnapCoach) : List (List Nat × IndexEntry) :=
  coaches.foldl (fun idx c =>
    match c.coach, c.school with
    | some n, some s =>
      if n = [] ∨ s = [] then idx else dinsert (tcNormStr n) ⟨some n, s, c.conference⟩ idx
    | _, _ => idx) []

/-- The POWER_FOUR membership test. -/
def is_power_four (conf : Option (List Nat)) : Bool :=
  match conf with
  | some c =>
    decide (c = enc "SEC") || decide (c = enc "Big 10") ||
    decide (c = enc "Big 12") || decide (c = enc "ACC")
  | none => false

/-- The change events emitted by detect_changes: a new hire, a departure,
or a cross-school position change.  There is no promotion event kind. -/
inductive ChangeEvent where
  | newHire (timestamp : List Nat) (coach : Option (List Nat)) (school : List Nat)
      (conference : Option (List Nat)) (previousCoach : Option (List Nat)) (alert : Bool)
  | departure (timestamp : List Nat) (coach : Option (List Nat)) (school : List Nat)
      (conference : Option (List Nat)) (replacementCoach : Option (List Nat)) (alert : Bool)
  | positionChange (timestamp : List Nat) (coach : Option (List Nat))
      (previousSchool newSchool : List Nat)
      (previousConference newConference : Option (List Nat)) (alert : Bool)
deriving DecidableEq

/-- Whether an event is the cross-school position-change kind. -/
def ChangeEvent.isMove : ChangeEvent → Bool
  | .positionChange _ _ _ _ _ _ _ => true
  | _ => false

/-- detect_changes from scripts/track_changes.py: new hires and departures
by school key, then departures of vanished schools, then cross-school
position changes by coach key. -/
def detect_changes (previous current : List SnapCoach) (ts : List Nat) : List ChangeEvent :=
  let pbs := build_school_index previous
  let cbs := build_school_index current
  let pbc := build_coach_index previous
  let cbc := build_coach_index current
  let hires := (cbs.map (fun kv =>
    match dlookup kv.1 pbs with
    | none =>
      [ChangeEvent.newHire ts kv.2.coach kv.2.school kv.2.conference none
        (is_power_four kv.2.conference)]
    | some p =>
      if normalize_text p.coach ≠ normalize_text kv.2.coach then
        [ChangeEvent.newHire ts kv.2.coach kv.2.school kv.2.conference p.coach
          (is_power_four kv.2.conference),
         ChangeEvent.departure ts p.coach p.school p.conference kv.2.coach
          (is_power_four p.conference)]
      else [])).flatten
  let departures := (pbs.map (fun kv =>
    match dlookup kv.1 cbs with
    | some _ => []
    | none =>
      [ChangeEvent.departure ts kv.2.coach kv.2.school kv.2.conference none
        (is_power_four kv.2.conference)])).flatten
  let moves := (pbc.map (fun kv =>
    match dlookup kv.1 cbc with
    | none => []
    | some c =>
      if normalize_text (some kv.2.school) ≠ normalize_text (some c.school) then
        [ChangeEvent.positionChange ts c.coach kv.2.school c.school kv.2.conference c.conference
          (is_power_four c.conference || is_power_four kv.2.conference)]
      else [])).flatten
  hires ++ departures ++ moves

end TrackChanges

/-- Claim C8: diffing a snapshot where SchoolX has coach Alice against one
where it has coach Bob emits exactly one new-hire event (Bob at SchoolX,
with Alice as previous coach) and one departure event (Alice from SchoolX,
with Bob as replacement), in that order, and no promotion or move event. -/
theorem c8_detect_changes (ts schoolX alice bob : List Nat) (conf : Option (List Nat))
    (hs : schoolX ≠ []) (ha : alice ≠ []) (hb : bob ≠ [])
    (hdiff : TrackChanges.normalize_text (some alice) ≠ TrackChanges.normalize_text (some bob)) :
    TrackChanges.detect_changes
        [⟨some alice, some schoolX, conf⟩] [⟨some bob, some schoolX, conf⟩] ts =
      [TrackChanges.ChangeEvent.newHire ts (some bob) schoolX conf (some alice)
        (TrackChanges.is_power_four conf),
       TrackChanges.ChangeEvent.departure ts (some alice) schoolX conf (some bob)
        (TrackChanges.is_power_four conf)] ∧
    ∀ e ∈ TrackChanges.detect_changes
        [⟨some alice, some schoolX, conf⟩] [⟨some bob, some schoolX, conf⟩] ts,
      TrackChanges.ChangeEvent.isMove e = false := by
  have hpbs : TrackChanges.build_school_index [⟨some alice, some schoolX, conf⟩] =
      [(TrackChanges.tcNormStr schoolX, ⟨some alice, schoolX, conf⟩)] := by
    simp [TrackChanges.build_school_index, TrackChanges.dinsert, hs]
  have hcbs : TrackChanges.build_school_index [⟨some bob, some schoolX, conf⟩] =
      [(TrackChanges.tcNormStr schoolX, ⟨some bob, schoolX, conf⟩)] := by
    simp [TrackChanges.build_school_index, TrackChanges.dinsert, hs]
  have hpbc : TrackChanges.build_coach_index [⟨some alice, some schoolX, conf⟩] =
      [(TrackChanges.tcNormStr alice, ⟨some alice, schoolX, conf⟩)] := by
    simp [TrackChanges.build_coach_index, TrackChanges.dinsert, ha, hs]
  have hcbc : TrackChanges.build_coach_index [⟨some bob, some schoolX, conf⟩] =
      [(TrackChanges.tcNormStr bob, ⟨some bob, schoolX, conf⟩)] := by
    simp [TrackChanges.build_coach_index, TrackChanges.dinsert, hb, hs]
  have hkey : ¬ (TrackChanges.tcNormStr bob = TrackChanges.tcNormStr alice) := by
    intro h
    apply hdiff
    simp only [TrackChanges.normalize_text, if_neg ha, if_neg hb]
    exact h.symm
  have hmain : TrackChanges.detect_changes
      [⟨some alice, some schoolX, conf⟩] [⟨some bob, some schoolX, conf⟩] ts =
      [TrackChanges.ChangeEvent.newHire ts (some bob) schoolX conf (some alice)
        (TrackChanges.is_power_four conf),
       TrackChanges.ChangeEvent.departure ts (some alice) schoolX conf (some bob)
        (TrackChanges.is_power_four conf)] := by
    unfold TrackChanges.detect_changes
    rw [hpbs, hcbs, hpbc, hcbc]
    simp only [List.map_cons, List.map_nil, TrackChanges.dlookup, if_pos rfl]
    rw [if_neg hkey]
    simp [hdiff]
  refine ⟨hmain, ?_⟩
  rw [hmain]
  intro e he
  rcases List.mem_cons.mp he with rfl | he2
  · rfl
  · rw [List.mem_singleton] at he2
    subst he2
    rfl

/-- Witness for claim C8 at the concrete SchoolX snapshots. -/
theorem c8_detect_changes_witness :
    TrackChanges.detect_changes
        [⟨some (enc "Alice"), some (enc "SchoolX"), some (enc "SEC")⟩]
        [⟨some (enc "Bob"), some (enc "SchoolX"), some (enc "SEC")⟩] (enc "2026-01-01") =
      [TrackChanges.ChangeEvent.newHire (enc "2026-01-01") (some (enc "Bob")) (enc "SchoolX")
        (some (enc "SEC")) (some (enc "Alice")) (TrackChanges.is_power_four (some (enc "SEC"))),
       TrackChanges.ChangeEvent.departure (enc "2026-01-01") (some (enc "Alice")) (enc "SchoolX")
        (some (enc "SEC")) (some (enc "Bob")) (TrackChanges.is_power_four (some (enc "SEC")))] :=
  (c8_detect_changes (enc "2026-01-01") (enc "SchoolX") (enc "Alice") (enc "Bob")
    (some (enc "SEC")) (by decide) (by decide) (by decide) (by decide)).1

/-- Filtering after a pointwise update that only touches filtered-out
elements (and keeps them filtered out) is filtering the original. -/
theorem filter_map_frame {α : Type} (p : α → Bool) (f : α → α) (l : List α)
    (h : ∀ x ∈ l, f x = x ∨ (p x = false ∧ p (f x) = false)) :
    (l.map f).filter p = l.filter p := by
  induction l with
  | nil => rfl
  | cons a l ih =>
    have htail := ih (fun x hx => h x (List.mem_cons_of_mem _ hx))
    simp only [List.map_cons, List.filter_cons]
    rcases h a (List.mem_cons_self _ _) with ha | ⟨h1, h2⟩
    · rw [ha]
      by_cases hp : p a = true
      · rw [if_pos hp, if_pos hp, htail]
      · rw [if_neg hp, if_neg hp, htail]
    · rw [if_neg (by simp [h2]), if_neg (by simp [h1]), htail]

namespace ScrapeUsaToday

/-- A schools row as touched by upsert_usatoday_db. -/
structure SchoolRow where
  id : Nat
  name : List Nat
  slug : List Nat
deriving DecidableEq

/-- A coaches row as touched by upsert_usatoday_db. -/
structure DbCoachRow where
  id : Nat
  name : List Nat
  school_id : Nat
  position : List Nat
  is_head_coach : Nat
  year : Int
deriving DecidableEq

/-- A salaries row as touched by upsert_usatoday_db. -/
structure DbSalaryRow where
  id : Nat
  coach_id : Nat
  year : Int
  total_pay : Option Int
  school_pay : Option Int
  max_bonus : Option Int
  bonuses_paid : Option Int
  buyout : Option Int
  source : List Nat
  source_date : List Nat
deriving DecidableEq

/-- The database state: the three tables in rowid order with fresh rowids. -/
structure Db where
  schools : List SchoolRow
  coaches : List DbCoachRow
  salaries : List DbSalaryRow
  nextSchoolId : Nat
  nextCoachId : Nat
  nextSalaryId : Nat
deriving DecidableEq

/-- One scraped USA Today row. -/
structure UTRow where
  coach : Option (List Nat)
  school : Option (List Nat)
  totalPay : Option Int
  schoolPay : Option Int
  maxBonus : Option Int
  bonusesPaid : Option Int
  buyout : Option Int
deriving DecidableEq

/-- Character class kept by re.sub(r"[^a-z0-9\\s\\-]", "", slug) of
normalize_school_slug: the raw string escapes the backslashes, so the class
is lowercase letters, digits, the backslash, the letter s and the hyphen
(whitespace is deleted). -/
def slugKeepChar (n : Nat) : Bool :=
  (97 ≤ n && n ≤ 122) || isDigitCode n || n = 92 || n = 115 || n = 45

/-- Strip leading and trailing whitespace (str.strip()). -/
def stripWsBoth (cs : List Nat) : List Nat :=
  ((cs.dropWhile isWsCode).reverse.dropWhile isWsCode).reverse

/-- Strip leading and trailing hyphens. -/
def stripHyphBoth (cs : List Nat) : List Nat :=
  ((cs.dropWhile (fun c => decide (c = 45))).reverse.dropWhile (fun c => decide (c = 45))).reverse

/-- re.sub(r"\\s+", "-", slug): the escaped raw string makes this replace
each backslash followed by a run of the letter s with one hyphen.  The fuel
only forces termination (the length of cs is always enough). -/
def subBackslashS : Nat → List Nat → List Nat
  | 0, cs => cs
  | fuel + 1, cs =>
    match cs with
    | [] => []
    | 92 :: rest =>
      let ss := rest.takeWhile (fun c => decide (c = 115))
      if ss = [] then 92 :: subBackslashS fuel rest
      else 45 :: subBackslashS fuel (rest.drop ss.length)
    | c :: rest => c :: subBackslashS fuel rest

/-- The hardcoded slug replacements table. -/
def slugAliases (slug : List Nat) : List Nat :=
  if slug = enc "miami-fl" then enc "miami-fl"
  else if slug = enc "miami-oh" then enc "miami-oh"
  else if slug = enc "ole-miss" then enc "mississippi"
  else if slug = enc "army-west-point" then enc "army"
  else slug

/-- normalize_school_slug from scripts/scrape_usatoday.py. -/
def normalize_school_slug (name : Option (List Nat)) : List Nat :=
  let s0 := stripWsBoth ((name.getD []).map lowerCode)
  let s1 := ((s0.map (fun c => if c = 38 then enc "and" else [c])).flatten).filter slugKeepChar
  let s2 := stripHyphBoth (subBackslashS s1.length s1)
  slugAliases s2

/-- The coach lookup ordering ORDER BY is_head_coach DESC, id DESC. -/
def coachKeyGt (a b : DbCoachRow) : Bool :=
  decide (b.is_head_coach < a.is_head_coach) ||
  (decide (a.is_head_coach = b.is_head_coach) && decide (b.id < a.id))

/-- LIMIT 1 of the ordered coach lookup: the maximum under the ordering. -/
def pickCoach (l : List DbCoachRow) : Option DbCoachRow :=
  l.foldl (fun acc c =>
    match acc with
    | none => some c
    | some b => if coachKeyGt c b then some c else some b) none

/-- The WHERE clause of the school lookup. -/
def schoolBySlug (db : Db) (slug : List Nat) : Option SchoolRow :=
  db.schools.find? (fun s : SchoolRow => decide (s.slug = slug))

/-- The school lookup plus INSERT OR IGNORE of upsert_usatoday_db. -/
def ensureSchool (db : Db) (schoolName slug : List Nat) : Db :=
  match schoolBySlug db slug with
  | some _ => db
  | none =>
    { db with
      schools := db.schools ++ [⟨db.nextSchoolId, schoolName, slug⟩],
      nextSchoolId := db.nextSchoolId + 1 }

/-- The WHERE clause of the coach lookup. -/
def coachMatches (db : Db) (coachName : List Nat) (schoolId : Nat) (year : Int) :
    List DbCoachRow :=
  db.coaches.filter (fun c : DbCoachRow =>
    decide (c.school_id = schoolId) && decide (c.name = coachName) && decide (c.year = year))

/-- The coach lookup plus INSERT of upsert_usatoday_db; returns the state
and the coach rowid. -/
def ensureCoach (db : Db) (coachName : List Nat) (schoolId : Nat) (year : Int) : Db × Nat :=
  match pickCoach (coachMatches db coachName schoolId year) with
  | some c => (db, c.id)
  | none =>
    ({ db with
       coaches := db.coaches ++ [⟨db.nextCoachId, coachName, schoolId, enc "Head Coach", 1, year⟩],
       nextCoachId := db.nextCoachId + 1 }, db.nextCoachId)

/-- The WHERE clause of the existing-salary lookup. -/
def salaryLookup (db : Db) (coachId : Nat) (year : Int) : Option DbSalaryRow :=
  db.salaries.find? (fun r : DbSalaryRow =>
    decide (r.coach_id = coachId) && decide (r.year = year) &&
    decide (r.source = enc "usa_today"))

/-- The UPDATE of one salaries row. -/
def updSalary (row : UTRow) (sd : List Nat) (e : DbSalaryRow) (r : DbSalaryRow) : DbSalaryRow :=
  if r.id = e.id then
    { r with
      total_pay := row.totalPay,
      school_pay := row.schoolPay,
      max_bonus := row.maxBonus,
      bonuses_paid := row.bonusesPaid,
      buyout := row.buyout,
      source_date := sd }
  else r

/-- The fresh salaries row of the INSERT. -/
def newSalary (db : Db) (coachId : Nat) (year : Int) (row : UTRow) (sd : List Nat) :
    DbSalaryRow :=
  ⟨db.nextSalaryId, coachId, year, row.totalPay, row.schoolPay, row.maxBonus,
   row.bonusesPaid, row.buyout, enc "usa_today", sd⟩

/-- The salary UPDATE-or-INSERT of upsert_usatoday_db for one matched coach. -/
def writeSalary (db : Db) (coachId : Nat) (year : Int) (row : UTRow)
    (source_date : List Nat) : Db :=
  match salaryLookup db coachId year with
  | some e => { db with salaries := db.salaries.map (updSalary row source_date e) }
  | none =>
    { db with
      salaries := db.salaries ++ [newSalary db coachId year row source_date],
      nextSalaryId := db.nextSalaryId + 1 }

/-- The school, coach and salary writes of one row, after the school
lookup-or-insert. -/
def stepBody (year : Int) (source_date : List Nat) (db : Db) (row : UTRow) : Db :=
  match schoolBySlug (ensureSchool db (row.school.getD []) (normalize_school_slug row.school))
      (normalize_school_slug row.school) with
  | none => ensureSchool db (row.school.getD []) (normalize_school_slug row.school)
  | some school =>
    writeSalary
      (ensureCoach (ensureSchool db (row.school.getD []) (normalize_school_slug row.school))
        (row.coach.getD []) school.id year).1
      (ensureCoach (ensureSchool db (row.school.getD []) (normalize_school_slug row.school))
        (row.coach.getD []) school.id year).2
      year row source_date

/-- The body of the per-row loop of upsert_usatoday_db: skip falsy names,
resolve or insert the school, resolve or insert the coach for this year,
then upsert the salaries row of this year. -/
def step (year : Int) (source_date : List Nat) (db : Db) (row : UTRow) : Db :=
  if (row.coach.getD []) = [] ∨ (row.school.getD []) = [] then db
  else stepBody year source_date db row

/-- upsert_usatoday_db from scripts/scrape_usatoday.py. -/
def upsert_usatoday_db (coaches : List UTRow) (db : Db) (year : Int)
    (source_date : List Nat) : Db :=
  coaches.foldl (step year source_date) db

/-- Salary-table well-formedness: distinct rowids, all below the next
fresh rowid. -/
def DbWF (db : Db) : Prop :=
  (db.salaries.map (fun r => r.id)).Nodup ∧ ∀ r ∈ db.salaries, r.id < db.nextSalaryId

theorem ensureSchool_coaches (db : Db) (n s : List Nat) :
    (ensureSchool db n s).coaches = db.coaches := by
  unfold ensureSchool
  cases hf : schoolBySlug db s <;> rfl

theorem ensureSchool_salaries (db : Db) (n s : List Nat) :
    (ensureSchool db n s).salaries = db.salaries ∧
    (ensureSchool db n s).nextSalaryId = db.nextSalaryId := by
  unfold ensureSchool
  cases hf : schoolBySlug db s <;> exact ⟨rfl, rfl⟩

theorem ensureCoach_frame (db : Db) (cn : List Nat) (sid : Nat) (Y : Int) :
    (ensureCoach db cn sid Y).1.salaries = db.salaries ∧
    (ensureCoach db cn sid Y).1.nextSalaryId = db.nextSalaryId ∧
    (ensureCoach db cn sid Y).1.coaches.filter (fun c => decide (c.year ≠ Y)) =
      db.coaches.filter (fun c => decide (c.year ≠ Y)) := by
  unfold ensureCoach
  cases hp : pickCoach (coachMatches db cn sid Y) with
  | none =>
    refine ⟨rfl, rfl, ?_⟩
    show (db.coaches ++ [(⟨db.nextCoachId, cn, sid, enc "Head Coach", 1, Y⟩ : DbCoachRow)]).filter
      (fun c => decide (c.year ≠ Y)) = db.coaches.filter (fun c => decide (c.year ≠ Y))
    rw [List.filter_append]
    simp
  | some c => exact ⟨rfl, rfl, rfl⟩

theorem writeSalary_eq_insert (db : Db) (cid : Nat) (Y : Int) (row : UTRow) (sd : List Nat)
    (h : salaryLookup db cid Y = none) :
    writeSalary db cid Y row sd =
      { db with
        salaries := db.salaries ++ [newSalary db cid Y row sd],
        nextSalaryId := db.nextSalaryId + 1 } := by
  unfold writeSalary
  rw [h]

theorem writeSalary_eq_update (db : Db) (cid : Nat) (Y : Int) (row : UTRow) (sd : List Nat)
    (e : DbSalaryRow) (h : salaryLookup db cid Y = some e) :
    writeSalary db cid Y row sd =
      { db with salaries := db.salaries.map (updSalary row sd e) } := by
  unfold writeSalary
  rw [h]

theorem writeSalary_frame (db : Db) (cid : Nat) (Y : Int) (row : UTRow) (sd : List Nat)
    (hwf : DbWF db) :
    DbWF (writeSalary db cid Y row sd) ∧
    (writeSalary db cid Y row sd).salaries.filter (fun r => decide (r.year ≠ Y)) =
      db.salaries.filter (fun r => decide (r.year ≠ Y)) ∧
    (writeSalary db cid Y row sd).coaches = db.coaches := by
  cases hf : salaryLookup db cid Y with
  | none =>
    rw [writeSalary_eq_insert db cid Y row sd hf]
    refine ⟨⟨?_, ?_⟩, ?_, rfl⟩
    · show ((db.salaries ++ [newSalary db cid Y row sd]).map (fun r => r.id)).Nodup
      rw [List.map_append, List.nodup_append]
      refine ⟨hwf.1, List.nodup_singleton _, ?_⟩
      intro a ha hb
      simp only [List.map_cons, List.map_nil, List.mem_singleton] at hb
      subst hb
      simp only [List.mem_map] at ha
      obtain ⟨r, hr, hrid⟩ := ha
      exact absurd hrid (Nat.ne_of_lt (hwf.2 r hr))
    · show ∀ r ∈ db.salaries ++ [newSalary db cid Y row sd], r.id < db.nextSalaryId + 1
      intro r hr
      rcases List.mem_append.mp hr with hr | hr
      · exact Nat.lt_succ_of_lt (hwf.2 r hr)
      · rw [List.mem_singleton] at hr
        subst hr
        exact Nat.lt_succ_self _
    · show (db.salaries ++ [newSalary db cid Y row sd]).filter (fun r => decide (r.year ≠ Y)) =
        db.salaries.filter (fun r => decide (r.year ≠ Y))
      rw [List.filter_append]
      simp [newSalary]
  | some e =>
    have hemem : e ∈ db.salaries := List.mem_of_find?_eq_some hf
    have hepred := List.find?_some hf
    simp only [Bool.and_eq_true, decide_eq_true_eq] at hepred
    have heyear : e.year = Y := hepred.1.2
    have hid : ∀ r : DbSalaryRow, (updSalary row sd e r).id = r.id := by
      intro r
      unfold updSalary
      by_cases h : r.id = e.id
      · rw [if_pos h]
      · rw [if_neg h]
    rw [writeSalary_eq_update db cid Y row sd e hf]
    refine ⟨⟨?_, ?_⟩, ?_, rfl⟩
    · show ((db.salaries.map (updSalary row sd e)).map (fun r => r.id)).Nodup
      rw [List.map_map]
      have hcongr : ((fun r : DbSalaryRow => r.id) ∘ updSalary row sd e) =
          fun r : DbSalaryRow => r.id := by
        funext r
        exact hid r
      rw [hcongr]
      exact hwf.1
    · show ∀ r ∈ db.salaries.map (updSalary row sd e), r.id < db.nextSalaryId
      intro r hr
      simp only [List.mem_map] at hr
      obtain ⟨x, hx, hxe⟩ := hr
      subst hxe
      rw [hid x]
      exact hwf.2 x hx
    · show (db.salaries.map (updSalary row sd e)).filter (fun r => decide (r.year ≠ Y)) =
        db.salaries.filter (fun r => decide (r.year ≠ Y))
      apply filter_map_frame
      intro x hx
      by_cases h : x.id = e.id
      · right
        have hxe : x = e := List.inj_on_of_nodup_map hwf.1 hx hemem h
        subst hxe
        constructor
        · simp [heyear]
        · unfold updSalary
          rw [if_pos h]
          simp [heyear]
      · left
        unfold updSalary
        rw [if_neg h]

theorem step_frame (Y : Int) (sd : List Nat) (db : Db) (row : UTRow) (hwf : DbWF db) :
    DbWF (step Y sd db row) ∧
    (step Y sd db row).coaches.filter (fun c => decide (c.year ≠ Y)) =
      db.coaches.filter (fun c => decide (c.year ≠ Y)) ∧
    (step Y sd db row).salaries.filter (fun r => decide (r.year ≠ Y)) =
      db.salaries.filter (fun r => decide (r.year ≠ Y)) := by
  unfold step
  by_cases h0 : (row.coach.getD []) = [] ∨ (row.school.getD []) = []
  · rw [if_pos h0]
    exact ⟨hwf, rfl, rfl⟩
  · rw [if_neg h0]
    unfold stepBody
    have h1c : (ensureSchool db (row.school.getD []) (normalize_school_slug row.school)).coaches =
        db.coaches := ensureSchool_coaches db _ _
    have h1s := ensureSchool_salaries db (row.school.getD []) (normalize_school_slug row.school)
    have h1wf : DbWF (ensureSchool db (row.school.getD []) (normalize_school_slug row.school)) := by
      unfold DbWF
      rw [h1s.1, h1s.2]
      exact hwf
    cases hfs : schoolBySlug (ensureSchool db (row.school.getD []) (normalize_school_slug row.school))
        (normalize_school_slug row.school) with
    | none =>
      refine ⟨h1wf, ?_, ?_⟩
      · rw [h1c]
      · rw [h1s.1]
    | some school =>
      have h2 := ensureCoach_frame (ensureSchool db (row.school.getD [])
        (normalize_school_slug row.school)) (row.coach.getD []) school.id Y
      have h2wf : DbWF (ensureCoach (ensureSchool db (row.school.getD [])
          (normalize_school_slug row.school)) (row.coach.getD []) school.id Y).1 := by
        unfold DbWF
        rw [h2.1, h2.2.1]
        exact h1wf
      have h3 := writeSalary_frame
        (ensureCoach (ensureSchool db (row.school.getD []) (normalize_school_slug row.school))
          (row.coach.getD []) school.id Y).1
        (ensureCoach (ensureSchool db (row.school.getD []) (normalize_school_slug row.school))
          (row.coach.getD []) school.id Y).2
        Y row sd h2wf
      refine ⟨h3.1, ?_, ?_⟩
      · rw [h3.2.2, h2.2.2, h1c]
      · rw [h3.2.1, h2.1, h1s.1]

end ScrapeUsaToday

/-- Claim C10: upsert_usatoday_db is frame-bounded to the season it is run
for: after the call, the coaches rows and the salaries rows whose year
differs from the given year are exactly those of the initial state (salary
rowids assumed distinct and below the fresh-id counter, as for a primary
key). -/
theorem c10_upsert_usatoday_frame (coaches : List ScrapeUsaToday.UTRow)
    (db : ScrapeUsaToday.Db) (Y : Int) (sd : List Nat)
    (hwf : ScrapeUsaToday.DbWF db) :
    (ScrapeUsaToday.upsert_usatoday_db coaches db Y sd).coaches.filter
        (fun c => decide (c.year ≠ Y)) =
      db.coaches.filter (fun c => decide (c.year ≠ Y)) ∧
    (ScrapeUsaToday.upsert_usatoday_db coaches db Y sd).salaries.filter
        (fun r => decide (r.year ≠ Y)) =
      db.salaries.filter (fun r => decide (r.year ≠ Y)) := by
  suffices h : ∀ (rows : List ScrapeUsaToday.UTRow) (st : ScrapeUsaToday.Db),
      ScrapeUsaToday.DbWF st →
      ScrapeUsaToday.DbWF (ScrapeUsaToday.upsert_usatoday_db rows st Y sd) ∧
      (ScrapeUsaToday.upsert_usatoday_db rows st Y sd).coaches.filter
          (fun c => decide (c.year ≠ Y)) =
        st.coaches.filter (fun c => decide (c.year ≠ Y)) ∧
      (ScrapeUsaToday.upsert_usatoday_db rows st Y sd).salaries.filter
          (fun r => decide (r.year ≠ Y)) =
        st.salaries.filter (fun r => decide (r.year ≠ Y)) by
    exact ⟨(h coaches db hwf).2.1, (h coaches db hwf).2.2⟩
  intro rows
  induction rows with
  | nil => intro st hst; exact ⟨hst, rfl, rfl⟩
  | cons r rest ih =>
    intro st hst
    have hstep := ScrapeUsaToday.step_frame Y sd st r hst
    have hrec := ih (ScrapeUsaToday.step Y sd st r) hstep.1
    refine ⟨hrec.1, ?_, ?_⟩
    · show (ScrapeUsaToday.upsert_usatoday_db rest
        (ScrapeUsaToday.step Y sd st r) Y sd).coaches.filter (fun c => decide (c.year ≠ Y)) =
        st.coaches.filter (fun c => decide (c.year ≠ Y))
      rw [hrec.2.1, hstep.2.1]
    · show (ScrapeUsaToday.upsert_usatoday_db rest
        (ScrapeUsaToday.step Y sd st r) Y sd).salaries.filter (fun r => decide (r.year ≠ Y)) =
        st.salaries.filter (fun r => decide (r.year ≠ Y))
      rw [hrec.2.2, hstep.2.2]

/-- Witness for claim C10: a one-row ingest for year 2026 against a state
holding a 2025 coach and a 2025 salary leaves those prior-season rows
exactly as they were. -/
theorem c10_upsert_usatoday_frame_witness :
    (ScrapeUsaToday.upsert_usatoday_db
        [⟨some (enc "Ryan Day"), some (enc "Ohio State"), some 10000000, some 9500000,
          some 1000000, some 250000, some 45000000⟩]
        ⟨[⟨1, enc "Ohio State", enc "ohiostate"⟩],
         [⟨1, enc "Ryan Day", 1, enc "Head Coach", 1, 2025⟩],
         [⟨1, 1, 2025, some 9000000, some 8500000, none, none, none, enc "usa_today",
           enc "2025-01-01"⟩], 2, 2, 2⟩ 2026 (enc "2026-02-01")).coaches.filter
        (fun c => decide (c.year ≠ 2026)) =
      [⟨1, enc "Ryan Day", 1, enc "Head Coach", 1, 2025⟩] ∧
    (ScrapeUsaToday.upsert_usatoday_db
        [⟨some (enc "Ryan Day"), some (enc "Ohio State"), some 10000000, some 9500000,
          some 1000000, some 250000, some 45000000⟩]
        ⟨[⟨1, enc "Ohio State", enc "ohiostate"⟩],
         [⟨1, enc "Ryan Day", 1, enc "Head Coach", 1, 2025⟩],
         [⟨1, 1, 2025, some 9000000, some 8500000, none, none, none, enc "usa_today",
           enc "2025-01-01"⟩], 2, 2, 2⟩ 2026 (enc "2026-02-01")).salaries.filter
        (fun r => decide (r.year ≠ 2026)) =
      [⟨1, 1, 2025, some 9000000, some 8500000, none, none, none, enc "usa_today",
        enc "2025-01-01"⟩] := by
  have h := c10_upsert_usatoday_frame
    [⟨some (enc "Ryan Day"), some (enc "Ohio State"), some 10000000, some 9500000,
      some 1000000, some 250000, some 45000000⟩]
    ⟨[⟨1, enc "Ohio State", enc "ohiostate"⟩],
     [⟨1, enc "Ryan Day", 1, enc "Head Coach", 1, 2025⟩],
     [⟨1, 1, 2025, some 9000000, some 8500000, none, none, none, enc "usa_today",
       enc "2025-01-01"⟩], 2, 2, 2⟩ 2026 (enc "2026-02-01")
    (by constructor <;> decide)
  refine ⟨?_, ?_⟩
  · rw [h.1]
    decide
  · rw [h.2]
    decide

end CoachDB